import Mathlib

/-!
Verification development for the hcbp-scripts-lint style checker
(`rules/st_rules/rule_003.py` — ST.003 parameter alignment, and
`rules/st_rules/rule_005.py` — ST.005 indentation level).

The Python code is shallowly embedded: a Python `str` line becomes a
`List Char`, Python `int` becomes `Int` (or `Nat` where the source value is a
length/index that is provably non-negative), the `log_error_func` callback
becomes the returned list of `(lineNumber, message)` pairs (the `file_path`
and `"ST.00x"` arguments of the callback are constant per run and omitted
from the pairs), and Python dicts that are iterated in insertion order become
association lists kept in insertion order.
-/

/-- A Python string (one line of input) as a list of characters. -/
abbrev Line := List Char

/-- Build a `Line` from a string literal (used for concrete inputs). -/
def lineOf (s : String) : Line := s.data

/- Named characters, so that no brace or quote appears as a character literal. -/

def chTab : Char := Char.ofNat 9
def chNL : Char := Char.ofNat 10
def chVT : Char := Char.ofNat 11
def chFF : Char := Char.ofNat 12
def chCR : Char := Char.ofNat 13
def chSpace : Char := Char.ofNat 32
def chHash : Char := Char.ofNat 35
def chDQuote : Char := Char.ofNat 34
def chSQuote : Char := Char.ofNat 39
def chLParen : Char := Char.ofNat 40
def chDash : Char := Char.ofNat 45
def chLT : Char := Char.ofNat 60
def chEq : Char := Char.ofNat 61
def chLBrack : Char := Char.ofNat 91
def chRBrack : Char := Char.ofNat 93
def chLBrace : Char := Char.ofNat 123
def chRBrace : Char := Char.ofNat 125

/-- Python `str.isspace` / regex `\s` on the ASCII characters that can occur in
a line obtained from `content.split('\n')`. -/
def pyIsSpace (c : Char) : Bool :=
  c = chSpace || c = chTab || c = chNL || c = chCR || c = chVT || c = chFF

/-- Python `str.lstrip()`. -/
def pyLstrip (l : Line) : Line := l.dropWhile pyIsSpace

/-- Python `str.rstrip()`. -/
def pyRstrip (l : Line) : Line := (l.reverse.dropWhile pyIsSpace).reverse

/-- Python `str.strip()` (stripping the right end first; the two orders agree). -/
def pyStrip (l : Line) : Line := pyLstrip (pyRstrip l)

/-- Python `str.find(c)` for a single-character needle: `none` models `-1`. -/
def pyFind : Line → Char → Option Nat
  | [], _ => none
  | a :: rest, c => if a = c then some 0 else (pyFind rest c).map (· + 1)

/-- Python `str.count(c)` for a single-character needle. -/
def pyCount (l : Line) (c : Char) : Nat := l.countP (· = c)

/-- Python `str.startswith(pre)`. -/
def startsWithL (l pre : Line) : Bool := pre.isPrefixOf l

/-- Python `str.endswith(suf)`. -/
def endsWithL (l suf : Line) : Bool := suf.isSuffixOf l

/-- Python `sub in l` (substring containment). -/
def containsSub : Line → Line → Bool
  | [], sub => sub.isEmpty
  | l@(_ :: t), sub => sub.isPrefixOf l || containsSub t sub

/-- Python `c in l` (single character containment). -/
def containsChar (l : Line) (c : Char) : Bool := l.any (· = c)

/-- `len(line) - len(line.lstrip())`: the number of leading whitespace
characters (this is how rule_003 computes indentation widths). -/
def leadingWs (l : Line) : Nat := (l.takeWhile pyIsSpace).length

/-- Number of leading space characters (`' '` only). -/
def countLeadingSpaces (l : Line) : Nat := (l.takeWhile (· = chSpace)).length

/-- Python `str.expandtabs(2)`, column-accurate: a tab advances to the next
column that is a multiple of 2; `\n`/`\r` reset the column. -/
def expandtabs2Go : Nat → Line → Line
  | _, [] => []
  | col, c :: rest =>
    if c = chTab then
      let n := 2 - col % 2
      List.replicate n chSpace ++ expandtabs2Go (col + n) rest
    else if c = chNL || c = chCR then c :: expandtabs2Go 0 rest
    else c :: expandtabs2Go (col + 1) rest

/-- Python `str.expandtabs(2)`. -/
def expandtabs2 (l : Line) : Line := expandtabs2Go 0 l

/-- Helper of `splitNL`: accumulates the current (reversed) chunk. -/
def splitNLGo (cur : Line) : Line → List Line
  | [] => [cur.reverse]
  | c :: rest => if c = chNL then cur.reverse :: splitNLGo [] rest else splitNLGo (c :: cur) rest

/-- Python `content.split('\n')`. -/
def splitNL (l : Line) : List Line := splitNLGo [] l

/-- Regex `[A-Z]`. -/
def isUpperAZ (c : Char) : Bool := (Char.ofNat 65) ≤ c && c ≤ (Char.ofNat 90)

/-!
## rule_005.py — ST.005 indentation level check
-/

/-- `re.search(r'<<-?([A-Z]+)\s*$', line)`, returning the captured terminator.
The match, if any, is a maximal trailing run of uppercase letters (after
dropping trailing whitespace) immediately preceded by `<<` or `<<-`. -/
def heredocStartMatch (line : Line) : Option Line :=
  let r := pyRstrip line
  let revRun := r.reverse.takeWhile isUpperAZ
  let rest := (r.reverse.drop revRun.length).reverse
  let run := revRun.reverse
  if run.isEmpty then none
  else if endsWithL rest [chLT, chLT] || endsWithL rest [chLT, chLT, chDash] then some run
  else none

/-- `_check_heredoc_state` (rule_005.py lines 353-394).  The pair is the
`(in_heredoc, terminator)` state.  An empty stored terminator is falsy in
Python, hence the `t ≠ []` guard on the end-of-heredoc branch. -/
def checkHeredocState (line : Line) (inH : Bool) (term : Option Line) : Bool × Option Line :=
  if ¬inH then
    match heredocStartMatch line with
    | some t => (true, some t)
    | none => (inH, term)
  else
    match term with
    | some t => if !t.isEmpty && pyStrip line = t then (false, none) else (inH, term)
    | none => (inH, term)

/-- `_get_indentation_level` helper loop: count leading spaces, `-1` on a tab. -/
def getIndentGo : Line → Int → Int
  | [], n => n
  | c :: rest, n =>
    if c = chSpace then getIndentGo rest (n + 1)
    else if c = chTab then -1
    else n

/-- `_get_indentation_level` (rule_005.py lines 397-416). -/
def pyGetIndentationLevel (line : Line) : Int := getIndentGo line 0

/-- The ST.005 diagnostic message. -/
def indentMsg (cur expected : Int) : String :=
  ("Indentation level incorrect. Current indentation: ") ++ toString cur ++
    (" spaces, Expected: ") ++ toString expected ++ (" spaces")

/-- The `line_content.startswith('resource ') or ... or line_content.startswith('provider ')`
disjunction used twice in `_validate_line_indentation`. -/
def startsWithTopKeyword (lc : Line) : Bool :=
  startsWithL lc (lineOf ("resource ")) || startsWithL lc (lineOf ("data ")) ||
  startsWithL lc (lineOf ("variable ")) || startsWithL lc (lineOf ("output ")) ||
  startsWithL lc (lineOf ("locals ")) || startsWithL lc (lineOf ("terraform ")) ||
  startsWithL lc (lineOf ("provider "))

/-- Condition of the first branch of `_validate_line_indentation`
(rule_005.py lines 175-182): a top-level block declaration line. -/
def topLevelDeclCond (lc : Line) : Bool :=
  startsWithTopKeyword lc && containsChar lc chSpace &&
    !endsWithL lc [chLBrace] && !containsSub lc (lineOf (" = "))

/-- Expected indentation chosen for an odd indentation level
(rule_005.py lines 199-213). -/
def oddIndentExpected (indent : Int) : Int :=
  if indent = 1 then 2
  else if indent = 3 then 2
  else if indent = 5 then 6
  else if indent = 7 then 6
  else if indent = 9 then 8
  else indent - 1

/-- Condition of the `indent_level == 0 and '=' in line_content ...` branch of
`_validate_line_indentation` (rule_005.py lines 225-241), including the inner
`not (line_content.startswith('resource ') or ...)` test that guards the report. -/
def bareTopAssignCond (lc : Line) (indent : Int) (isTfvars : Bool) : Bool :=
  indent = 0 && containsChar lc chEq && !startsWithL lc [chHash] && !isTfvars &&
    !startsWithTopKeyword lc

/-- The closing/opening analysis of `_validate_line_indentation`
(rule_005.py lines 246-279): returns the final values of
`(has_closing, has_opening)` after the balanced-line and
parameter-assignment adjustments. -/
def closingAnalysis (lc : Line) : Bool × Bool :=
  let openBraces := pyCount lc chLBrace
  let closeBraces := pyCount lc chRBrace
  let openBrackets := pyCount lc chLBrack
  let closeBrackets := pyCount lc chRBrack
  let hasClosing := closeBraces > 0 || closeBrackets > 0
  let hasOpening := openBraces > 0 || openBrackets > 0
  let netCloseBraces : Int := (closeBraces : Int) - (openBraces : Int)
  let netCloseBrackets : Int := (closeBrackets : Int) - (openBrackets : Int)
  let bracketsBalanced := openBrackets = closeBrackets && openBrackets > 0
  let bracesBalanced := openBraces = closeBraces && openBraces > 0
  let p1 :=
    if (bracketsBalanced || bracesBalanced) && netCloseBraces ≤ 0 && netCloseBrackets ≤ 0 then
      (false, false)
    else (hasClosing, hasOpening)
  let isParamAssign := containsChar lc chEq && !startsWithL lc [chHash]
  if isParamAssign && netCloseBraces ≤ 0 && netCloseBrackets ≤ 0 then (false, false)
  else p1

/-- `_validate_line_indentation` (rule_005.py lines 155-342).  `lineContent` is
the stripped line, `indentLevel` the leading-space count, `currentNestingLevel`
the brace+bracket depth before the line, and `braceLevel`/`bracketLevel` the
depths after the line's own level update (exactly the values the caller passes).
The `file_path` and `lines` source arguments do not affect the reported pairs
and are omitted. -/
def validateLineIndentation (lineNum : Nat) (lineContent : Line) (indentLevel : Int)
    (isTfvars : Bool) (currentNestingLevel braceLevel bracketLevel : Int) :
    List (Nat × String) :=
  if topLevelDeclCond lineContent then
    if indentLevel > 0 then [(lineNum, indentMsg indentLevel 0)] else []
  else if indentLevel > 0 && indentLevel % 2 ≠ 0 then
    [(lineNum, indentMsg indentLevel (oddIndentExpected indentLevel))]
  else if bareTopAssignCond lineContent indentLevel isTfvars then
    [(lineNum, indentMsg indentLevel 2)]
  else
    let closeBraces := pyCount lineContent chRBrace
    let closeBrackets := pyCount lineContent chRBrack
    let openBraces := pyCount lineContent chLBrace
    let openBrackets := pyCount lineContent chLBrack
    let netCloseBraces : Int := (closeBraces : Int) - (openBraces : Int)
    let netCloseBrackets : Int := (closeBrackets : Int) - (openBrackets : Int)
    let hc := closingAnalysis lineContent
    let hasClosing := hc.1
    let hasOpening := hc.2
    let totalNetClose := netCloseBraces + netCloseBrackets
    let expectedIndent : Int :=
      if hasClosing && (netCloseBraces > 0 || netCloseBrackets > 0) then
        if totalNetClose = 0 && hasOpening then
          if closeBrackets > 0 then
            (braceLevel + max 0 (bracketLevel - closeBrackets)) * 2
          else if closeBraces > 0 then
            (max 0 (braceLevel - closeBraces) + bracketLevel) * 2
          else max 0 ((currentNestingLevel - totalNetClose) * 2)
        else max 0 ((currentNestingLevel - totalNetClose) * 2)
      else if hasClosing && hasOpening then
        if closeBrackets > 0 then
          (braceLevel + max 0 (bracketLevel - closeBrackets)) * 2
        else if closeBraces > 0 then
          (max 0 (braceLevel - closeBraces) + bracketLevel) * 2
        else currentNestingLevel * 2
      else currentNestingLevel * 2
    let expectedIndent :=
      if indentLevel % 2 ≠ 0 then
        if indentLevel < expectedIndent then indentLevel + 1 else indentLevel - 1
      else expectedIndent
    if indentLevel ≠ expectedIndent then [(lineNum, indentMsg indentLevel expectedIndent)]
    else []

/-- The scan state of `check_st005_indentation_level`'s main loop. -/
structure St005State where
  inHeredoc : Bool
  terminator : Option Line
  braceLevel : Int
  bracketLevel : Int
deriving DecidableEq

/-- The initial state at the top of a file. -/
def st005Init : St005State := ⟨false, none, 0, 0⟩

/-- One iteration of the `for line_num, line in enumerate(lines, 1)` loop of
`check_st005_indentation_level` (rule_005.py lines 106-152): the next state and
the diagnostics reported for this line. -/
def st005ProcessLine (isTfvars : Bool) (st : St005State) (lineNum : Nat) (line : Line) :
    St005State × List (Nat × String) :=
  if pyStrip line = [] then (st, [])
  else
    let hs := checkHeredocState line st.inHeredoc st.terminator
    if hs.1 then ({ st with inHeredoc := hs.1, terminator := hs.2 }, [])
    else
      let st1 : St005State := { st with inHeredoc := hs.1, terminator := hs.2 }
      let lineContent := pyStrip line
      if startsWithL lineContent [chHash] then (st1, [])
      else
        let openBraces := pyCount line chLBrace
        let closeBraces := pyCount line chRBrace
        let openBrackets := pyCount line chLBrack
        let closeBrackets := pyCount line chRBrack
        let netBraceChange : Int := (openBraces : Int) - (closeBraces : Int)
        let netBracketChange : Int := (openBrackets : Int) - (closeBrackets : Int)
        let currentNestingLevel := st1.braceLevel + st1.bracketLevel
        let brace' := max 0 (st1.braceLevel + netBraceChange)
        let bracket' := max 0 (st1.bracketLevel + netBracketChange)
        let st2 : St005State := { st1 with braceLevel := brace', bracketLevel := bracket' }
        let indentLevel := pyGetIndentationLevel line
        if indentLevel = -1 then (st2, [])
        else
          (st2, validateLineIndentation lineNum lineContent indentLevel isTfvars
                  currentNestingLevel brace' bracket')

/-- The main loop of `check_st005_indentation_level`, accumulating diagnostics
in file order. -/
def st005Go (isTfvars : Bool) (st : St005State) (lineNum : Nat) :
    List Line → List (Nat × String)
  | [] => []
  | l :: rest =>
    let r := st005ProcessLine isTfvars st lineNum l
    r.2 ++ st005Go isTfvars r.1 (lineNum + 1) rest

/-- Python `str.endswith` for the `.tfvars` test on the file path. -/
def isTfvarsPath (filePath : String) : Bool := endsWithL filePath.data (lineOf (".tfvars"))

/-- `check_st005_indentation_level` (rule_005.py lines 58-152): the list of
`(line, message)` pairs passed to `log_error_func`, in emission order. -/
def st005Check (filePath : String) (content : String) : List (Nat × String) :=
  st005Go (isTfvarsPath filePath) st005Init 1 (splitNL content.data)

/-- The scan states at the start of each line's loop iteration (used to expose
the nesting depth "before" a given line). -/
def st005States (isTfvars : Bool) (st : St005State) : List Line → List St005State
  | [] => []
  | l :: rest => st :: st005States isTfvars (st005ProcessLine isTfvars st 0 l).1 rest

/-- Brace+bracket depth before line `k` (0-based) of `content`. -/
def st005NestingBefore (filePath : String) (content : String) (k : Nat) : Int :=
  match (st005States (isTfvarsPath filePath) st005Init (splitNL content.data)).get? k with
  | some st => st.braceLevel + st.bracketLevel
  | none => 0

/-!
## rule_003.py — ST.003 parameter alignment check (block path)
-/

/-- One entry of `param_data` in `_check_group_alignment`
(rule_003.py lines 1622-1650): `(param_name, line, relative_line_idx,
equals_pos, is_nested_block)`. -/
structure ParamEntry where
  name : Line
  line : Line
  idx : Nat
  equalsPos : Nat
  isNestedBlock : Bool
deriving DecidableEq, Repr

/-- Regex class `[^"'=\s]` used for parameter names. -/
def isNameChar (c : Char) : Bool :=
  !(c = chDQuote || c = chSQuote || c = chEq || pyIsSpace c)

/-- Full match of `re.match(r'^\s*(["\']?)([^"\'=\s]+)\1\s*$', before_equals)`
returning capture group 2 (the parameter name without quotes). -/
def paramNameMatch (beforeEquals : Line) : Option Line :=
  let s := pyStrip beforeEquals
  match s with
  | [] => none
  | c :: rest =>
    if c = chDQuote || c = chSQuote then
      match rest.getLast? with
      | some d =>
        if d = c then
          let nm := rest.dropLast
          if !nm.isEmpty && nm.all isNameChar then some nm else none
        else none
      | none => none
    else if s.all isNameChar then some s else none

/-- The `param_data` extraction loop of `_check_group_alignment`
(rule_003.py lines 1622-1650). -/
def paramDataOf (groupLines : List (Line × Nat)) : List ParamEntry :=
  groupLines.flatMap (fun li =>
    match pyFind li.1 chEq with
    | none => []
    | some p =>
      let beforeEquals := li.1.take p
      if startsWithL (pyStrip beforeEquals) [chLBrack] ||
          ((pyStrip beforeEquals).isEmpty && startsWithL (pyStrip li.1) [chLBrack]) then []
      else if startsWithL (pyStrip li.1) [chLParen] &&
          (containsSub li.1 (lineOf ("==")) || containsSub li.1 (lineOf ("!="))) then []
      else
        let afterEquals := pyStrip (li.1.drop (p + 1))
        let isNested := startsWithL afterEquals [chLBrace]
        match paramNameMatch beforeEquals with
        | some nm => [⟨nm, li.1, li.2, p, isNested⟩]
        | none => [])

/-- `_has_st004_issue` (rule_003.py lines 1534-1536): a tab character. -/
def hasSt004Issue (l : Line) : Bool := containsChar l chTab

/-- `_has_st005_issue` (rule_003.py lines 1539-1551).  The `indent_level`
source argument is unused by the source body and omitted here.  An empty
`blockLines` models both Python `None` and `[]` (both falsy). -/
def hasSt005IssueIndent (l : Line) (idx : Nat) (blockLines : List Line) : Bool :=
  let actualIndent := leadingWs l
  if actualIndent % 2 ≠ 0 then true
  else if actualIndent = 4 && !blockLines.isEmpty && idx > 0 then
    containsSub (blockLines.getD (idx - 1) []) (lineOf ("ST.005"))
  else false

/-- The meta-parameter list of `_should_skip_alignment_check`. -/
def metaParameters : List Line :=
  [lineOf ("count"), lineOf ("for_each"), lineOf ("provider"),
   lineOf ("depends_on"), lineOf ("lifecycle")]

/-- `_has_st008_issue` (rule_003.py lines 1554-1562): the parameter is a
meta-parameter. -/
def hasSt008Issue (paramName : Line) : Bool := metaParameters.any (· = paramName)

/-- `_should_skip_alignment_check` (rule_003.py lines 1565-1582). -/
def shouldSkipAlignmentCheck (l paramName : Line) (idx : Nat) (blockLines : List Line) : Bool :=
  hasSt004Issue l || hasSt005IssueIndent l idx blockLines || hasSt008Issue paramName

/-- Message of `_check_equals_after_spacing` for no space after `=`. -/
def spacingAfterMsg (bt : String) : String :=
  ("Parameter assignment should have exactly one space after '=' in ") ++ bt

/-- Message of `_check_equals_after_spacing` for multiple spaces after `=`. -/
def spacingAfterMultiMsg (bt : String) : String :=
  ("Parameter assignment should have exactly one space after '=' in ") ++ bt ++
    (", found multiple spaces")

/-- `_check_equals_after_spacing` (rule_003.py lines 1585-1609). -/
def checkEqualsAfterSpacing (l : Line) (idx : Nat) (bt : String) (blockStart : Nat) :
    List (Nat × String) :=
  match pyFind l chEq with
  | none => []
  | some p =>
    let n := blockStart + idx + 1
    let afterEquals := l.drop (p + 1)
    if !startsWithL afterEquals [chSpace] then [(n, spacingAfterMsg bt)]
    else if startsWithL afterEquals [chSpace, chSpace] then [(n, spacingAfterMultiMsg bt)]
    else []

/-- `_check_parameter_spacing` (rule_003.py lines 1772-1780): delegates to
`_check_equals_after_spacing`. -/
def checkParameterSpacing (l : Line) (idx : Nat) (bt : String) (blockStart : Nat) :
    List (Nat × String) :=
  checkEqualsAfterSpacing l idx bt blockStart

/-- Misalignment message when `=` is left of the expected column. -/
def notAlignedLtMsg (bt : String) (req : Int) (expected : Nat) : String :=
  ("Parameter assignment equals sign not aligned in ") ++ bt ++ (". Expected ") ++
    toString req ++ (" spaces between parameter name and '=', equals sign should be at column ") ++
    toString (expected + 1)

/-- Misalignment message when `=` is right of the expected column. -/
def notAlignedGtMsg (bt : String) (expected : Nat) : String :=
  ("Parameter assignment equals sign not aligned in ") ++ bt ++
    (". Too many spaces before '=', equals sign should be at column ") ++ toString (expected + 1)

/-- Single-member spacing-before-equals message (rule_003.py lines 1671-1675). -/
def singleSpacingMsg (bt : String) : String :=
  ("Parameter assignment equals sign spacing incorrect in ") ++ bt ++
    (". Expected exactly 1 space between parameter name and '='")

/-- `max(len(param_name) for ...)` over a `param_data` list. -/
def maxNameLen (pd : List ParamEntry) : Nat := pd.foldr (fun p m => max p.name.length m) 0

/-- `line[:line.find('=')].strip().startswith('"')`; when `find` yields `-1`
Python takes `line[:-1]`. -/
def quotedBeforeEquals (l : Line) : Bool :=
  match pyFind l chEq with
  | some q => startsWithL (pyStrip (l.take q)) [chDQuote]
  | none => startsWithL (pyStrip l.dropLast) [chDQuote]

/-- `has_quoted_params` of the non-tfvars branch (rule_003.py lines 1733-1736):
any member whose name part starts with a double quote. -/
def anyQuotedParam (pd : List ParamEntry) : Bool := pd.any (fun p => quotedBeforeEquals p.line)

/-- Add one occurrence of key `k` to an insertion-ordered count list
(models growing `unique_equals_positions`). -/
def bumpPos : List (Nat × Nat) → Nat → List (Nat × Nat)
  | [], k => [(k, 1)]
  | (a, c) :: rest, k => if a = k then (a, c + 1) :: rest else (a, c) :: bumpPos rest k

/-- `unique_equals_positions` of `_check_group_alignment`
(rule_003.py lines 1687-1690), as insertion-ordered `(position, count)` pairs. -/
def uniquePositionsAll (pd : List ParamEntry) : List (Nat × Nat) :=
  pd.foldl (fun m p => bumpPos m p.equalsPos) []

/-- Python `max(..., key=count)` over an insertion-ordered count list: the
first key with maximal count. -/
def firstMaxBySnd (l : List (Nat × Nat)) : Nat × Nat :=
  match l with
  | [] => (0, 0)
  | h :: t => t.foldl (fun b y => if y.2 > b.2 then y else b) h

/-- The `expected_equals_location` computed from the longest parameter name,
with the quote width taken from that longest member
(rule_003.py lines 1708-1714 / 1716-1722). -/
def longestBasedExpected (pd : List ParamEntry) (indentSpaces longestLen : Nat) : Nat :=
  match pd with
  | [] => indentSpaces + longestLen + 1
  | h :: t =>
    let lp := t.foldl (fun b y => if y.name.length > b.name.length then y else b) h
    let quote := if startsWithL (pyStrip (lp.line.take lp.equalsPos)) [chDQuote] then 2 else 0
    indentSpaces + longestLen + quote + 1

/-- The `expected_equals_location` selection of `_check_group_alignment`
(rule_003.py lines 1679-1739), covering both the `block_type == "tfvars"`
sub-branch and the ordinary branch. -/
def expectedEqualsLocation (pd : List ParamEntry) (indentLevel : Nat) (bt : String) : Nat :=
  let longestLen := maxNameLen pd
  let indentSpaces := indentLevel * 2
  if bt = ("tfvars") then
    let up := uniquePositionsAll pd
    if up.length = 1 then (up.headD (0, 0)).1
    else if up.length > 1 then
      let mc := firstMaxBySnd up
      if 2 * mc.2 > pd.length && mc.2 ≥ 2 then mc.1
      else longestBasedExpected pd indentSpaces longestLen
    else longestBasedExpected pd indentSpaces longestLen
  else
    let quote := if anyQuotedParam pd then 2 else 0
    indentSpaces + longestLen + quote + 1

/-- `len(before_equals) - len(before_equals.rstrip())` for the single-member
branch (rule_003.py lines 1666-1668). -/
def spacesBeforeEquals (l : Line) (p : Nat) : Nat :=
  let beforeEquals := l.take p
  beforeEquals.length - (pyRstrip beforeEquals).length

/-- `_check_group_alignment` (rule_003.py lines 1612-1769). -/
def checkGroupAlignment (groupLines : List (Line × Nat)) (indentLevel : Nat) (bt : String)
    (blockStart : Nat) (blockLines : List Line) : List (Nat × String) :=
  let pd := paramDataOf groupLines
  if pd.length < 1 then []
  else if pd.length = 1 then
    match pd with
    | [] => []
    | p :: _ =>
      let n := blockStart + p.idx + 1
      if shouldSkipAlignmentCheck p.line p.name p.idx blockLines then []
      else if spacesBeforeEquals p.line p.equalsPos ≠ 1 then [(n, singleSpacingMsg bt)]
      else []
  else
    let expected := expectedEqualsLocation pd indentLevel bt
    let indentSpaces := indentLevel * 2
    pd.flatMap (fun p =>
      let n := blockStart + p.idx + 1
      if p.equalsPos = expected then []
      else if shouldSkipAlignmentCheck p.line p.name p.idx blockLines then []
      else
        let req : Int := (expected : Int) - (indentSpaces : Int) - (p.name.length : Int)
        if p.equalsPos < expected then [(n, notAlignedLtMsg bt req expected)]
        else [(n, notAlignedGtMsg bt expected)])

/-!
## rule_003.py — `_check_parameter_alignment_in_section`

The source function (lines 1353-1531) first computes an `is_inside_function_call`
flag (lines 1374-1425) that is never read afterwards (the loop only `pass`es /
`break`s; see the comment at lines 1423-1425); that dead pre-pass is omitted.
-/

/-- `kw.isPrefixOf s` followed by at least one whitespace character: one
alternative of `re.match(r'^\s*(kw1|...)\s+', line)` after the `\s*` prefix
has been dropped. -/
def matchKwSpace (s kw : Line) : Bool :=
  kw.isPrefixOf s &&
    (match s.drop kw.length with
     | c :: _ => pyIsSpace c
     | [] => false)

/-- Keywords of `re.match(r'^\s*(data|resource|variable|output|locals|module)\s+', line)`. -/
def blockDeclKeywords : List Line :=
  [lineOf ("data"), lineOf ("resource"), lineOf ("variable"),
   lineOf ("output"), lineOf ("locals"), lineOf ("module")]

/-- The block-declaration skip regex of line 1454. -/
def blockDeclMatch (line : Line) : Bool :=
  blockDeclKeywords.any (fun kw => matchKwSpace (pyLstrip line) kw)

/-- Regex class `[a-zA-Z_]`. -/
def isIdentStart (c : Char) : Bool :=
  (Char.ofNat 97 ≤ c && c ≤ Char.ofNat 122) || (Char.ofNat 65 ≤ c && c ≤ Char.ofNat 90) ||
    c = Char.ofNat 95

/-- Regex class `[a-zA-Z0-9_]`. -/
def isIdentChar (c : Char) : Bool := isIdentStart c || (Char.ofNat 48 ≤ c && c ≤ Char.ofNat 57)

/-- `re.match(r'^\s*[a-zA-Z_][a-zA-Z0-9_]*\s*=\s*\{', line)` (line 1456). -/
def reqProvDeclMatch (line : Line) : Bool :=
  match pyLstrip line with
  | [] => false
  | c :: rest =>
    if isIdentStart c then
      match (rest.dropWhile isIdentChar).dropWhile pyIsSpace with
      | d :: rest2 => d = chEq && startsWithL (rest2.dropWhile pyIsSpace) [chLBrace]
      | [] => false
    else false

/-- The `parameter_lines` extraction loop of `_check_parameter_alignment_in_section`
(lines 1427-1467), including its heredoc suppression (lines 1432-1450).
`section` is the whole section (needed for the `required_providers` test,
which quantifies over all section lines); the last argument is the remaining
part being scanned. -/
def cpaisParamLinesGo (sectionAll : List (Line × Nat)) (inH : Bool) (term : Option Line) :
    List (Line × Nat) → List (Line × Nat)
  | [] => []
  | li :: rest =>
    let line := pyRstrip li.1
    let stripped := pyStrip line
    let st1 : Bool × Option Line :=
      match inH, term with
      | true, some t => if !t.isEmpty && stripped = t then (false, none) else (true, some t)
      | a, b => (a, b)
    if st1.1 then cpaisParamLinesGo sectionAll st1.1 st1.2 rest
    else
      let st2 : Bool × Option Line :=
        match heredocStartMatch line with
        | some t => (true, some t)
        | none => st1
      let keep :=
        containsChar line chEq && !startsWithL stripped [chHash] &&
          !blockDeclMatch line &&
          !(reqProvDeclMatch line &&
            sectionAll.any (fun pl => containsSub pl.1 (lineOf ("required_providers")))) &&
          !(startsWithL stripped [chLParen] &&
            (containsSub line (lineOf ("==")) || containsSub line (lineOf ("!="))))
      (if keep then [(line, li.2)] else []) ++ cpaisParamLinesGo sectionAll st2.1 st2.2 rest

/-- Append `v` to the entry of key `k` of an insertion-ordered association
list, creating the key at the end if absent (Python dict insertion order). -/
def insertIndentGroup (m : List (Nat × List (Line × Nat))) (k : Nat) (v : Line × Nat) :
    List (Nat × List (Line × Nat)) :=
  match m with
  | [] => [(k, [v])]
  | (a, vs) :: rest => if a = k then (a, vs ++ [v]) :: rest else (a, vs) :: insertIndentGroup rest k v

/-- The `indent_groups` dictionary of lines 1476-1484. -/
def cpaisIndentGroups (paramLines : List (Line × Nat)) : List (Nat × List (Line × Nat)) :=
  paramLines.foldl
    (fun m li =>
      let lws := expandtabs2 li.1
      insertIndentGroup m (leadingWs lws / 2) li)
    []

/-- Stable insertion of an element into a list sorted by the stored index. -/
def insertByIdx (p : Line × Nat) : List (Line × Nat) → List (Line × Nat)
  | [] => [p]
  | q :: rest => if p.2 ≤ q.2 then p :: q :: rest else q :: insertByIdx p rest

/-- `sorted(group_lines, key=lambda x: x[1])` (line 1489): a stable sort by
the relative line index. -/
def sortByIdx : List (Line × Nat) → List (Line × Nat)
  | [] => []
  | p :: rest => insertByIdx p (sortByIdx rest)

/-- `for check_idx in range(lo, hi): if check_idx < len(block_lines) and
block_lines[check_idx].strip() == ''` (lines 1501-1504). -/
def anyBlankBetween (blockLines : List Line) (lo hi : Nat) : Bool :=
  (List.range (hi - lo)).any (fun k =>
    match blockLines.get? (lo + k) with
    | some l => pyStrip l = []
    | none => false)

/-- The sub-group split on blank lines (lines 1493-1519). -/
def splitSubGroupsGo (blockLines : List Line) (cur : List (Line × Nat)) (prev : Option Nat) :
    List (Line × Nat) → List (List (Line × Nat))
  | [] => if cur.isEmpty then [] else [cur]
  | li :: rest =>
    match prev with
    | some pi =>
      if !blockLines.isEmpty && anyBlankBetween blockLines (pi + 1) li.2 then
        (if cur.isEmpty then [] else [cur]) ++ splitSubGroupsGo blockLines [li] (some li.2) rest
      else splitSubGroupsGo blockLines (cur ++ [li]) (some li.2) rest
    | none => splitSubGroupsGo blockLines (cur ++ [li]) (some li.2) rest

/-- `_check_parameter_alignment_in_section` (rule_003.py lines 1353-1531). -/
def checkParameterAlignmentInSection (sectionLines : List (Line × Nat)) (bt : String)
    (blockStart : Nat) (blockLines : List Line) : List (Nat × String) :=
  let paramLines := cpaisParamLinesGo sectionLines false none sectionLines
  if paramLines.isEmpty then []
  else
    (cpaisIndentGroups paramLines).flatMap (fun g =>
      (splitSubGroupsGo blockLines [] none (sortByIdx g.2)).flatMap (fun sg =>
        checkGroupAlignment sg g.1 bt blockStart blockLines ++
          sg.flatMap (fun li => checkParameterSpacing li.1 li.2 bt blockStart)))

/-!
## rule_003.py — `.tfvars` group alignment (`_check_group_alignment_tfvars`)
-/

/-- One entry of `param_data` in `_check_group_alignment_tfvars`
(rule_003.py lines 2851-2896): the stored line is the original one, while
`equalsPos` is measured on the tab-expanded display line. -/
structure TfvarsEntry where
  name : Line
  line : Line
  lineNum : Nat
  equalsPos : Nat
  shouldSkip : Bool
deriving DecidableEq, Repr

/-- `_is_equals_in_string_value` (rule_003.py lines 1947-1998). -/
def isEqualsInStringValue (line : Line) : Bool :=
  match pyFind line chEq with
  | none => false
  | some p =>
    let stripped := pyStrip line
    let ops : List Line := [lineOf ("=="), lineOf ("!="), lineOf (">="), lineOf ("<=")]
    (startsWithL stripped [chDQuote] &&
      ops.any (fun op => containsSub line (chDQuote :: op) || containsSub line (op ++ [chDQuote])))
    || (startsWithL stripped [chSQuote] &&
      ops.any (fun op => containsSub line (chSQuote :: op) || containsSub line (op ++ [chSQuote])))
    || (let afterEquals := pyStrip (line.drop (p + 1))
        (startsWithL afterEquals [chDQuote] &&
          ops.any (fun op =>
            containsSub afterEquals (chDQuote :: op) || containsSub afterEquals (op ++ [chDQuote])) &&
          pyStrip (line.take p) = [])
        || (startsWithL afterEquals [chSQuote] &&
          ops.any (fun op =>
            containsSub afterEquals (chSQuote :: op) || containsSub afterEquals (op ++ [chSQuote])) &&
          pyStrip (line.take p) = []))

/-- Deduplication of `group_lines` by line number, first occurrence kept
(rule_003.py lines 2840-2848). -/
def tfvarsDedupLinesGo (seen : List Nat) : List (Nat × Line) → List (Nat × Line)
  | [] => []
  | nl :: rest =>
    if seen.contains nl.1 then tfvarsDedupLinesGo seen rest
    else nl :: tfvarsDedupLinesGo (nl.1 :: seen) rest

/-- Deduplication of `group_lines` by line number. -/
def tfvarsDedupLines (gl : List (Nat × Line)) : List (Nat × Line) := tfvarsDedupLinesGo [] gl

/-- The tfvars parameter-name match (rule_003.py lines 2877-2891): a prefix
match of `^\s*(["\'])([^"\'=\s]+)\1` for quoted names, else `^\s*([^"\'=\s]+)`. -/
def tfvarsNameMatch (beforeEquals : Line) : Option Line :=
  let s := pyLstrip beforeEquals
  if startsWithL (pyStrip beforeEquals) [chDQuote] || startsWithL (pyStrip beforeEquals) [chSQuote] then
    match s with
    | [] => none
    | q :: rest =>
      let nm := rest.takeWhile isNameChar
      if !nm.isEmpty && startsWithL (rest.drop nm.length) [q] then some nm else none
  else
    let nm := s.takeWhile isNameChar
    if !nm.isEmpty then some nm else none

/-- The `param_data` extraction loop of `_check_group_alignment_tfvars`
(rule_003.py lines 2851-2896). -/
def tfvarsParamDataOf (gl : List (Nat × Line)) : List TfvarsEntry :=
  gl.flatMap (fun nl =>
    let displayLine := expandtabs2 nl.2
    match pyFind displayLine chEq with
    | none => []
    | some p =>
      if isEqualsInStringValue displayLine then []
      else
        let beforeEquals := displayLine.take p
        if startsWithL (pyStrip beforeEquals) [chLBrack] ||
            ((pyStrip beforeEquals).isEmpty && startsWithL (pyStrip nl.2) [chLBrack]) then []
        else
          let afterEquals := pyStrip (displayLine.drop (p + 1))
          let isObjArrDecl := startsWithL afterEquals [chLBrack] || startsWithL afterEquals [chLBrace]
          let skip := isObjArrDecl && leadingWs nl.2 > 0
          match tfvarsNameMatch beforeEquals with
          | some nm => [⟨nm, nl.2, nl.1, p, skip⟩]
          | none => [])

/-- `max(len(p[0]) for p in ...)` over tfvars entries. -/
def maxTfNameLen (pd : List TfvarsEntry) : Nat := pd.foldr (fun p m => max p.name.length m) 0

/-- The longest-parameter-name computation of `_check_group_alignment_tfvars`
(rule_003.py lines 2901-2930; recomputed identically at lines 3030-3055 and
at lines 2816-2830 of `_compute_expected_equals_location_tfvars`). -/
def tfvarsLongestParamLen (pd : List TfvarsEntry) : Nat :=
  let nonSkipNonTab := pd.filter (fun p => !p.shouldSkip && !containsChar p.line chTab)
  if !nonSkipNonTab.isEmpty then
    let longest := maxTfNameLen nonSkipNonTab
    let skipped := pd.filter (fun p => p.shouldSkip && !containsChar p.line chTab)
    if !skipped.isEmpty then
      let ls := maxTfNameLen skipped
      if ls > longest && ls - longest ≥ 4 then ls else longest
    else longest
  else
    let nonTab := pd.filter (fun p => !containsChar p.line chTab)
    if !nonTab.isEmpty then maxTfNameLen nonTab else maxTfNameLen pd

/-- `unique_equals_positions` (rule_003.py lines 2935-2942), excluding lines
with tabs, as insertion-ordered `(position, count)` pairs. -/
def tfvarsUniquePositions (pd : List TfvarsEntry) : List (Nat × Nat) :=
  pd.foldl (fun m p => if containsChar p.line chTab then m else bumpPos m p.equalsPos) []

/-- `line[:line.find('=')].strip().startswith('"') or ....startswith("'")` on
the original stored line (rule_003.py lines 2952-2953 and 3184-3186). -/
def tfvarsQuotedBefore (p : TfvarsEntry) : Bool :=
  match pyFind p.line chEq with
  | some q =>
    let s := pyStrip (p.line.take q)
    startsWithL s [chDQuote] || startsWithL s [chSQuote]
  | none =>
    let s := pyStrip p.line.dropLast
    startsWithL s [chDQuote] || startsWithL s [chSQuote]

/-- `has_quoted_params` over tfvars entries. -/
def tfvarsHasQuoted (pd : List TfvarsEntry) : Bool := pd.any tfvarsQuotedBefore

/-- The tfvars formula column `indent_spaces + longest + quote_chars + 1`
(rule_003.py lines 2951-2956, recomputed at 3057-3063 and 3142-3150). -/
def tfvarsExpectedUnique (pd : List TfvarsEntry) (indentSpaces : Nat) : Nat :=
  indentSpaces + tfvarsLongestParamLen pd + (if tfvarsHasQuoted pd then 2 else 0) + 1

/-- The `at least one space after '='` message of the tfvars branches. -/
def atLeastAfterMsg (bt : String) : String :=
  ("Parameter assignment should have at least one space after '=' in ") ++ bt

/-- The spacing loop of the all-aligned branch (rule_003.py lines 2989-3009):
the equals sign is re-found on the original line. -/
def tfvarsUniqueSpacingErrors (pd : List TfvarsEntry) (bt : String) : List (Nat × String) :=
  pd.flatMap (fun p =>
    if p.shouldSkip then []
    else if containsChar p.line chTab then []
    else
      match pyFind p.line chEq with
      | none => []
      | some op =>
        match p.line.drop (op + 1) with
        | [] => [(p.lineNum, atLeastAfterMsg bt)]
        | c :: _ => if c ≠ chSpace then [(p.lineNum, atLeastAfterMsg bt)] else [])

/-- The spacing loop of the majority branch (rule_003.py lines 3124-3135):
here the display-based `equals_pos` is used to slice the original line, and
tab lines are not skipped. -/
def tfvarsMcSpacingErrors (pd : List TfvarsEntry) (bt : String) : List (Nat × String) :=
  pd.flatMap (fun p =>
    if p.shouldSkip then []
    else
      match p.line.drop (p.equalsPos + 1) with
      | [] => [(p.lineNum, atLeastAfterMsg bt)]
      | c :: _ => if c ≠ chSpace then [(p.lineNum, atLeastAfterMsg bt)] else [])

/-- The `use_most_common` / expected-column selection
(rule_003.py lines 3072-3086 together with 3152-3155).  `2 * mcCount > total`
models `most_common_count > total_params / 2` (exact float halving). -/
def tfvarsSelectExpected (mcPos mcCount total expectedBase : Nat) : Bool × Nat :=
  if 2 * mcCount > total || (total = 2 && mcCount = 2) then
    if ((mcPos : Int) - (expectedBase : Int)).natAbs ≥ 2 then (false, expectedBase)
    else (true, mcPos)
  else (false, expectedBase)

/-- The alignment loop of the majority branch (rule_003.py lines 3091-3122). -/
def tfvarsMcAlignErrors (pd : List TfvarsEntry) (indentSpaces expected mcPos mcCount : Nat)
    (bt : String) : List (Nat × String) :=
  pd.flatMap (fun p =>
    if p.shouldSkip then []
    else if p.equalsPos = expected then []
    else if mcCount > 1 && p.equalsPos = mcPos then []
    else if ((p.equalsPos : Int) - (expected : Int)).natAbs ≤ 1 then []
    else
      let req : Int := (expected : Int) - (indentSpaces : Int) - (p.name.length : Int)
      if p.equalsPos < expected then [(p.lineNum, notAlignedLtMsg bt req expected)]
      else [(p.lineNum, notAlignedGtMsg bt expected)])

/-- `should_align_with_next_decl` (rule_003.py lines 3230-3262). -/
def tfvarsShouldAlignNext (pd : List TfvarsEntry) (p : TfvarsEntry) : Bool :=
  match pd.findIdx? (fun e => e.lineNum = p.lineNum) with
  | none => false
  | some ci =>
    match pd.get? (ci + 1) with
    | none => false
    | some nextP =>
      if nextP.shouldSkip && nextP.lineNum - p.lineNum = 1 then
        let skipped := pd.filter (fun q => q.shouldSkip && !containsChar q.line chTab)
        if !skipped.isEmpty then
          let ls := maxTfNameLen skipped
          let nonSkipped := pd.filter (fun q => !q.shouldSkip && !containsChar q.line chTab)
          let nsl := if !nonSkipped.isEmpty then maxTfNameLen nonSkipped else 0
          ls > nsl && ls - nsl ≥ 4
        else false
      else false

/-- The final alignment loop of `_check_group_alignment_tfvars`
(rule_003.py lines 3157-3290). -/
def tfvarsFinalAlignErrors (pd : List TfvarsEntry) (indentSpaces expected : Nat)
    (useMC : Bool) (mcPos mcCount : Nat) (up : List (Nat × Nat)) (bt : String) :
    List (Nat × String) :=
  pd.flatMap (fun p =>
    if p.shouldSkip then []
    else if p.equalsPos = expected then []
    else if useMC && p.equalsPos = mcPos then []
    else if containsChar p.line chTab then []
    else if leadingWs p.line % 2 ≠ 0 then []
    else
      let paramDisplayLength := p.name.length + (if tfvarsQuotedBefore p then 2 else 0)
      let nonTabAligned :=
        pd.countP (fun q => q.equalsPos = p.equalsPos && !containsChar q.line chTab)
      let skipByGroup : Bool :=
        if nonTabAligned ≥ 2 then
          if p.equalsPos = expected then true
          else if useMC && p.equalsPos = mcPos then true
          else if ((p.equalsPos : Int) - (expected : Int)).natAbs ≤ 1 then true
          else if !useMC && !up.isEmpty && p.equalsPos = mcPos then
            if mcCount > nonTabAligned &&
                (p.equalsPos = expected || ((p.equalsPos : Int) - (expected : Int)).natAbs ≤ 1) then
              !tfvarsShouldAlignNext pd p
            else false
          else false
        else false
      if skipByGroup then []
      else
        let req : Int := (expected : Int) - (indentSpaces : Int) - (paramDisplayLength : Int)
        if p.equalsPos < expected then [(p.lineNum, notAlignedLtMsg bt req expected)]
        else if p.equalsPos > expected then [(p.lineNum, notAlignedGtMsg bt expected)]
        else [])

/-- `_check_group_alignment_tfvars` (rule_003.py lines 2836-3290). -/
def checkGroupAlignmentTfvars (groupLines : List (Nat × Line)) (indentLevel : Nat)
    (bt : String) : List (Nat × String) :=
  let gl := tfvarsDedupLines groupLines
  let pd := tfvarsParamDataOf gl
  if pd.length < 2 then []
  else
    let indentSpaces := indentLevel * 2
    let up := tfvarsUniquePositions pd
    if up.length = 1 then
      let expected := tfvarsExpectedUnique pd indentSpaces
      let aligned := (up.headD (0, 0)).1
      (if aligned < expected then
        pd.flatMap (fun p =>
          if p.shouldSkip then []
          else if containsChar p.line chTab then []
          else if p.equalsPos ≠ expected then
            [(p.lineNum,
              notAlignedLtMsg bt
                ((expected : Int) - (indentSpaces : Int) - (p.name.length : Int)) expected)]
          else [])
       else [])
      ++ tfvarsUniqueSpacingErrors pd bt
    else
      let nonTabCount := pd.countP (fun p => !containsChar p.line chTab)
      let mcT : (Nat × Nat) × Nat :=
        if !up.isEmpty then (firstMaxBySnd up, nonTabCount)
        else ((0, 0), if nonTabCount = 0 then pd.length else nonTabCount)
      let mcPos := mcT.1.1
      let mcCount := mcT.1.2
      let total := mcT.2
      let expectedBase := tfvarsExpectedUnique pd indentSpaces
      let sel := tfvarsSelectExpected mcPos mcCount total expectedBase
      if sel.1 then
        tfvarsMcAlignErrors pd indentSpaces sel.2 mcPos mcCount bt ++ tfvarsMcSpacingErrors pd bt
      else
        tfvarsFinalAlignErrors pd indentSpaces sel.2 sel.1 mcPos mcCount up bt

/-!
## Diagnostic report stages (sorting and deduplication)
-/

/-- Stable insertion of an error into a list sorted by line number. -/
def insertByLine (p : Nat × String) : List (Nat × String) → List (Nat × String)
  | [] => [p]
  | q :: rest => if p.1 ≤ q.1 then p :: q :: rest else q :: insertByLine p rest

/-- `all_errors.sort(key=lambda x: x[0])` — a stable sort by line number. -/
def sortByLine : List (Nat × String) → List (Nat × String)
  | [] => []
  | p :: rest => insertByLine p (sortByLine rest)

/-- The `seen`-set deduplication loop of `check_st003_parameter_alignment`
(rule_003.py lines 130-137): keep the first occurrence of each
`(line, message)` pair. -/
def dedupSeen (seen : List (Nat × String)) : List (Nat × String) → List (Nat × String)
  | [] => []
  | e :: rest => if e ∈ seen then dedupSeen seen rest else e :: dedupSeen (e :: seen) rest

/-- The final report stage of `check_st003_parameter_alignment`
(rule_003.py lines 126-141): sort by line number, deduplicate by
`(line, message)`, and emit in order. -/
def st003ReportStage (allErrors : List (Nat × String)) : List (Nat × String) :=
  dedupSeen [] (sortByLine allErrors)

/-- The per-section collection loop of `_check_tfvars_parameter_alignment`
(rule_003.py lines 2581-2585): keep an error only if its line number has not
been processed yet, and record the line number. -/
def tfvarsCollectSec (processed : List Nat) :
    List (Nat × String) → List (Nat × String) × List Nat
  | [] => ([], processed)
  | e :: rest =>
    if e.1 ∈ processed then tfvarsCollectSec processed rest
    else
      let r := tfvarsCollectSec (e.1 :: processed) rest
      (e :: r.1, r.2)

/-- The cross-section collection of `_check_tfvars_parameter_alignment`:
the `processed_lines` set is threaded through all sections. -/
def tfvarsCollectGo (processed : List Nat) : List (List (Nat × String)) → List (Nat × String)
  | [] => []
  | sec :: rest =>
    let r := tfvarsCollectSec processed sec
    r.1 ++ tfvarsCollectGo r.2 rest

/-- The final report stage of `_check_tfvars_parameter_alignment`
(rule_003.py lines 2580-2592): collect with per-line deduplication, then sort
by line number and emit. -/
def tfvarsReportStage (sectionErrors : List (List (Nat × String))) : List (Nat × String) :=
  sortByLine (tfvarsCollectGo [] sectionErrors)

/-- Model of the `_split_into_code_sections._block_lines` function attribute
(rule_003.py lines 271-278 and 1047): the attribute is overwritten with the
argument on entry, before the single read inside the same call.  `storedAttr`
is the attribute value left by any previous call; `body` abstracts the rest of
the function, receiving the argument and the attribute read. -/
def splitSectionsAttrCall (_storedAttr : Option (List Line)) (blockLines : List Line)
    (body : List Line → List Line → List (List (Line × Nat))) :
    List (List (Line × Nat)) × Option (List Line) :=
  let stored := some blockLines
  (body blockLines (stored.getD []), stored)

/-- Running a pure checker twice on the same input. -/
def runTwice {α β : Type} (f : α → β) (x : α) : β × β := (f x, f x)

/-- A tab character among the leading run of spaces/tabs (the characters
`_get_indentation_level` iterates before the first breaking character). -/
def tabInLeadingWs (l : Line) : Bool :=
  containsChar (l.takeWhile (fun c => c = chSpace || c = chTab)) chTab

/-- Heredoc layer of `_split_into_code_sections` (rule_003.py lines 303-326):
for one line, `(skipped, newInHeredoc, newTerminator)`.  The end-of-heredoc
test runs first; a line still inside the heredoc is skipped (it contributes to
no section and leaves the grouping state untouched); then a start match arms
the state.  The start and terminator lines themselves are processed normally. -/
def sectionHeredocStep (inH : Bool) (term : Option Line) (line : Line) :
    Bool × Bool × Option Line :=
  let stripped := pyStrip line
  let st1 : Bool × Option Line :=
    match inH, term with
    | true, some t => if !t.isEmpty && stripped = t then (false, none) else (true, some t)
    | a, b => (a, b)
  if st1.1 then (true, st1.1, st1.2)
  else
    match heredocStartMatch line with
    | some t => (false, true, some t)
    | none => (false, st1.1, st1.2)

/-- Backslash character. -/
def chBSlash : Char := Char.ofNat 92

/-- Dot character. -/
def chDot : Char := Char.ofNat 46

/-- Inner scan of `_remove_comments_for_parsing` (rule_003.py lines 157-177):
walk the line tracking the quote state; at an unquoted `#`, keep the whole
line when nothing but whitespace precedes the comment, else return the
right-stripped prefix before the `#`; with no unquoted `#` the line is
unchanged.  `acc` is the prefix already walked (`line[:i]`) and `prev` the
previous character (`line[i-1]`, `none` at index 0). -/
def rcfpGo (orig : Line) : Line → Option Char → Bool → Option Char → Line → Line
  | _, _, _, _, [] => orig
  | acc, prev, inQ, qc, c :: rest =>
    if (c = chDQuote ∨ c = chSQuote) ∧ prev ≠ some chBSlash then
      if inQ = false then rcfpGo orig (acc ++ [c]) (some c) true (some c) rest
      else if qc = some c then rcfpGo orig (acc ++ [c]) (some c) false none rest
      else rcfpGo orig (acc ++ [c]) (some c) inQ qc rest
    else if c = chHash ∧ inQ = false then
      if pyStrip acc = [] then orig else pyRstrip acc
    else rcfpGo orig (acc ++ [c]) (some c) inQ qc rest

/-- One line of `_remove_comments_for_parsing`: only lines containing `#` are
scanned (rule_003.py line 158). -/
def removeCommentsLine (line : Line) : Line :=
  if containsChar line chHash then rcfpGo line [] none false none line else line

/-- Python `'\n'.join`. -/
def joinNL : List Line → Line
  | [] => []
  | [l] => l
  | l :: ls => l ++ chNL :: joinNL ls

/-- `_remove_comments_for_parsing` (rule_003.py lines 144-180). -/
def removeCommentsForParsing (content : Line) : Line :=
  joinNL ((splitNL content).map removeCommentsLine)

/-- The name alternation `(?:"([^"]+)"|\'([^\']+)\'|([a-zA-Z_][a-zA-Z0-9_]*))`
of the block-header regexes in `_extract_code_blocks`: at the start of `s`, a
double-quoted or single-quoted non-empty name or a bare identifier; returns
the captured name and the rest of the string.  The match is deterministic:
no alternative can start where another leaves off backtracking room. -/
def matchQuotedOrIdent : Line → Option (Line × Line)
  | [] => none
  | c :: rest =>
    if c = chDQuote then
      let content := rest.takeWhile (fun x => !(x = chDQuote))
      if content ≠ [] ∧ (rest.drop content.length).head? = some chDQuote then
        some (content, (rest.drop content.length).tail)
      else none
    else if c = chSQuote then
      let content := rest.takeWhile (fun x => !(x = chSQuote))
      if content ≠ [] ∧ (rest.drop content.length).head? = some chSQuote then
        some (content, (rest.drop content.length).tail)
      else none
    else if isIdentStart c then
      some (c :: rest.takeWhile isIdentChar, rest.drop (rest.takeWhile isIdentChar).length)
    else none

/-- Regex `\s+`: at least one whitespace character, returning what follows the
maximal run (greediness is determinate here: every follower in the block
regexes starts with a non-whitespace character). -/
def skipWs1 : Line → Option Line
  | [] => none
  | c :: rest => if pyIsSpace c then some (rest.dropWhile pyIsSpace) else none

/-- A literal keyword at the start of the string (`re.match` anchors at the
start). -/
def dropKeyword (kw s : Line) : Option Line :=
  if startsWithL s kw then some (s.drop kw.length) else none

/-- Whether `\s*\x7b` matches at the start of `s`. -/
def wsThenLBrace (s : Line) : Bool :=
  match s.dropWhile pyIsSpace with
  | c :: _ => c = chLBrace
  | [] => false

/-- The two-capture block-header regexes of `_extract_code_blocks` (rule_003.py
lines 240-241, `data` and `resource`): keyword, `\s+`, name, `\s+`, name,
`\s*\x7b`; returns the two captured names. -/
def ecbMatch2 (kw s : Line) : Option (Line × Line) :=
  match dropKeyword kw s with
  | none => none
  | some r1 =>
    match skipWs1 r1 with
    | none => none
    | some r2 =>
      match matchQuotedOrIdent r2 with
      | none => none
      | some g1 =>
        match skipWs1 g1.2 with
        | none => none
        | some r3 =>
          match matchQuotedOrIdent r3 with
          | none => none
          | some g2 => if wsThenLBrace g2.2 then some (g1.1, g2.1) else none

/-- The one-capture block-header regexes (`provider`, `variable`, `output`,
rule_003.py lines 242, 246-247). -/
def ecbMatch1 (kw s : Line) : Option Line :=
  match dropKeyword kw s with
  | none => none
  | some r1 =>
    match skipWs1 r1 with
    | none => none
    | some r2 =>
      match matchQuotedOrIdent r2 with
      | none => none
      | some g1 => if wsThenLBrace g1.2 then some g1.1 else none

/-- The no-capture block-header regexes (`locals`, `terraform`, rule_003.py
lines 243-245): keyword then `\s*\x7b`. -/
def ecbMatch0 (kw s : Line) : Bool :=
  match dropKeyword kw s with
  | none => false
  | some r1 => wsThenLBrace r1

/-- Python f-string `f"data.\x7bdata_type\x7d.\x7bdata_name\x7d"` and its
`resource` twin. -/
def mkBt2 (pre : String) (t n : Line) : String := String.mk (pre.data ++ t ++ chDot :: n)

/-- Python f-string `f"provider.\x7bprovider_type\x7d"` and its one-name twins. -/
def mkBt1 (pre : String) (n : Line) : String := String.mk (pre.data ++ n)

/-- The block-header dispatch of `_extract_code_blocks` (rule_003.py lines
240-275), in the source's order (`data`, `resource`, `provider`, `locals`,
`terraform`, `variable`, `output`), producing the `block_type` string. -/
def ecbBlockType (line : Line) : Option String :=
  match ecbMatch2 (lineOf ("data")) line with
  | some g => some (mkBt2 ("data.") g.1 g.2)
  | none =>
    match ecbMatch2 (lineOf ("resource")) line with
    | some g => some (mkBt2 ("resource.") g.1 g.2)
    | none =>
      match ecbMatch1 (lineOf ("provider")) line with
      | some g => some (mkBt1 ("provider.") g)
      | none =>
        if ecbMatch0 (lineOf ("locals")) line then some ("locals")
        else if ecbMatch0 (lineOf ("terraform")) line then some ("terraform")
        else
          match ecbMatch1 (lineOf ("variable")) line with
          | some g => some (mkBt1 ("variable.") g)
          | none =>
            match ecbMatch1 (lineOf ("output")) line with
            | some g => some (mkBt1 ("output.") g)
            | none => none

/-- The inner body-collection loop of `_extract_code_blocks` (rule_003.py
lines 258-264): from line index `i`, collect whole lines while `i` is in
range and the running brace count stays positive, updating the count with the
`\x7b`/`\x7d` characters of each collected line; returns the collected lines
and the next index.  `fuel` only bounds the iteration count and never binds:
the loop advances `i` every step, so `lines.length` iterations suffice. -/
def ecbScan (lines : List Line) : Nat → Nat → Int → List Line × Nat
  | 0, i, _ => ([], i)
  | fuel + 1, i, bc =>
    if i < lines.length ∧ bc > 0 then
      let l := lines.getD i []
      let p := ecbScan lines fuel (i + 1)
        (bc + (pyCount l chLBrace : Int) - (pyCount l chRBrace : Int))
      (l :: p.1, p.2)
    else ([], i)

/-- The main loop of `_extract_code_blocks` (rule_003.py lines 192-275): scan
for block headers against each stripped line; a header line holding both
`\x7b` and `\x7d` opens a single-line block with an empty body; otherwise the
body is collected until the brace count returns to zero, and a final body
line stripping to `\x7d` is dropped.  Each block is
`(block_type, 1-based header line, body lines)`.  `fuel` only bounds the
iteration count and never binds: the index strictly increases each step. -/
def ecbGo (lines : List Line) : Nat → Nat → List (String × Nat × List Line)
  | 0, _ => []
  | fuel + 1, i =>
    if i < lines.length then
      let line := pyStrip (lines.getD i [])
      match ecbBlockType line with
      | some bt =>
        if containsChar line chLBrace ∧ containsChar line chRBrace then
          (bt, i + 1, ([] : List Line)) :: ecbGo lines fuel (i + 1)
        else
          let p := ecbScan lines lines.length (i + 1) 1
          let bls :=
            match p.1.getLast? with
            | some last => if pyStrip last = [chRBrace] then p.1.dropLast else p.1
            | none => p.1
          (bt, i + 1, bls) :: ecbGo lines fuel p.2
      | none => ecbGo lines fuel (i + 1)
    else []

/-- `_extract_code_blocks` (rule_003.py lines 183-275). -/
def extractCodeBlocks (content : Line) : List (String × Nat × List Line) :=
  ecbGo (splitNL content) ((splitNL content).length + 1) 0

/-- The non-`.tfvars` path of `check_st003_parameter_alignment` (rule_003.py
lines 109-141) with `_split_into_code_sections` abstracted as `splitter`:
comments are removed, blocks extracted, each block's body split into
sections, every section checked by
`_check_parameter_alignment_in_section`, and the collected errors sorted by
line and deduplicated before reporting. -/
def st003NonTfvarsWith (splitter : List Line → List (List (Line × Nat)))
    (content : Line) : List (Nat × String) :=
  st003ReportStage ((extractCodeBlocks (removeCommentsForParsing content)).flatMap
    (fun b => (splitter b.2.2).flatMap
      (fun sec => checkParameterAlignmentInSection sec b.1 b.2.1 b.2.2)))

/-!
## Helper lemmas
-/

lemma mem_insertByLine {x p : Nat × String} {l : List (Nat × String)}
    (h : x ∈ insertByLine p l) : x = p ∨ x ∈ l := by
  induction l with
  | nil => simpa [insertByLine] using h
  | cons q rest ih =>
    by_cases hle : p.1 ≤ q.1
    · simp only [insertByLine, if_pos hle, List.mem_cons] at h
      rcases h with h | h | h
      · exact Or.inl h
      · exact Or.inr (by simp [h])
      · exact Or.inr (List.mem_cons_of_mem _ h)
    · simp only [insertByLine, if_neg hle, List.mem_cons] at h
      rcases h with h | h
      · exact Or.inr (by simp [h])
      · rcases ih h with h | h
        · exact Or.inl h
        · exact Or.inr (List.mem_cons_of_mem _ h)

lemma insertByLine_pairwise {p : Nat × String} {l : List (Nat × String)}
    (h : l.Pairwise (fun a b => a.1 ≤ b.1)) :
    (insertByLine p l).Pairwise (fun a b => a.1 ≤ b.1) := by
  induction l with
  | nil => simp [insertByLine]
  | cons q rest ih =>
    rcases List.pairwise_cons.mp h with ⟨hq, hrest⟩
    by_cases hle : p.1 ≤ q.1
    · simp only [insertByLine, if_pos hle]
      refine List.pairwise_cons.mpr ⟨?_, h⟩
      intro a ha
      rcases List.mem_cons.mp ha with rfl | ha
      · exact hle
      · exact le_trans hle (hq a ha)
    · simp only [insertByLine, if_neg hle]
      refine List.pairwise_cons.mpr ⟨?_, ih hrest⟩
      intro a ha
      rcases mem_insertByLine ha with rfl | ha
      · omega
      · exact hq a ha

lemma sortByLine_pairwise (l : List (Nat × String)) :
    (sortByLine l).Pairwise (fun a b => a.1 ≤ b.1) := by
  induction l with
  | nil => simp [sortByLine]
  | cons p rest ih => exact insertByLine_pairwise ih

lemma insertByLine_perm (p : Nat × String) (l : List (Nat × String)) :
    List.Perm (insertByLine p l) (p :: l) := by
  induction l with
  | nil => simp [insertByLine]
  | cons q rest ih =>
    by_cases hle : p.1 ≤ q.1
    · simp [insertByLine, if_pos hle]
    · simp only [insertByLine, if_neg hle]
      exact ((ih.cons q).trans (List.Perm.swap p q rest))

lemma sortByLine_perm (l : List (Nat × String)) : List.Perm (sortByLine l) l := by
  induction l with
  | nil => simp [sortByLine]
  | cons p rest ih =>
    exact (insertByLine_perm p (sortByLine rest)).trans (ih.cons p)

lemma dedupSeen_sublist (l : List (Nat × String)) :
    ∀ seen, List.Sublist (dedupSeen seen l) l := by
  induction l with
  | nil => intro seen; simp [dedupSeen]
  | cons e rest ih =>
    intro seen
    by_cases he : e ∈ seen
    · simpa [dedupSeen, if_pos he] using (ih seen).cons e
    · simpa [dedupSeen, if_neg he] using (ih (e :: seen)).cons₂ e

lemma dedupSeen_not_mem_seen {x : Nat × String} (l : List (Nat × String)) :
    ∀ seen, x ∈ dedupSeen seen l → x ∉ seen := by
  induction l with
  | nil => intro seen h; simp [dedupSeen] at h
  | cons e rest ih =>
    intro seen h
    by_cases he : e ∈ seen
    · exact ih seen (by simpa [dedupSeen, if_pos he] using h)
    · simp only [dedupSeen, if_neg he, List.mem_cons] at h
      rcases h with rfl | h
      · exact he
      · have := ih (e :: seen) h
        intro hx
        exact this (List.mem_cons_of_mem _ hx)

lemma dedupSeen_nodup (l : List (Nat × String)) : ∀ seen, (dedupSeen seen l).Nodup := by
  induction l with
  | nil => intro seen; simp [dedupSeen]
  | cons e rest ih =>
    intro seen
    by_cases he : e ∈ seen
    · simpa [dedupSeen, if_pos he] using ih seen
    · simp only [dedupSeen, if_neg he]
      refine List.nodup_cons.mpr ⟨?_, ih (e :: seen)⟩
      intro hmem
      exact (dedupSeen_not_mem_seen rest (e :: seen) hmem) (List.mem_cons_self e seen)

lemma tfvarsCollectSec_spec (l : List (Nat × String)) :
    ∀ processed,
      ((tfvarsCollectSec processed l).1.Pairwise (fun a b => a.1 ≠ b.1)) ∧
      (∀ x ∈ (tfvarsCollectSec processed l).1,
        x.1 ∉ processed ∧ x.1 ∈ (tfvarsCollectSec processed l).2) ∧
      (∀ m ∈ processed, m ∈ (tfvarsCollectSec processed l).2) := by
  induction l with
  | nil => intro processed; simp [tfvarsCollectSec]
  | cons e rest ih =>
    intro processed
    by_cases he : e.1 ∈ processed
    · simpa [tfvarsCollectSec, if_pos he] using ih processed
    · rcases ih (e.1 :: processed) with ⟨hpw, hmem, hsub⟩
      refine ⟨?_, ?_, ?_⟩
      · simp only [tfvarsCollectSec, if_neg he]
        refine List.pairwise_cons.mpr ⟨?_, hpw⟩
        intro a ha
        have := (hmem a ha).1
        intro hEq
        exact this (by simp [← hEq])
      · intro x hx
        simp only [tfvarsCollectSec, if_neg he, List.mem_cons] at hx
        rcases hx with rfl | hx
        · exact ⟨he, by simpa [tfvarsCollectSec, if_neg he] using hsub x.1 (by simp)⟩
        · refine ⟨?_, ?_⟩
          · intro hp
            exact (hmem x hx).1 (List.mem_cons_of_mem _ hp)
          · simpa [tfvarsCollectSec, if_neg he] using (hmem x hx).2
      · intro m hm
        simpa [tfvarsCollectSec, if_neg he] using hsub m (List.mem_cons_of_mem _ hm)

lemma tfvarsCollectGo_spec (S : List (List (Nat × String))) :
    ∀ processed,
      (tfvarsCollectGo processed S).Pairwise (fun a b => a.1 ≠ b.1) ∧
      (∀ x ∈ tfvarsCollectGo processed S, x.1 ∉ processed) := by
  induction S with
  | nil => intro processed; simp [tfvarsCollectGo]
  | cons sec rest ih =>
    intro processed
    rcases tfvarsCollectSec_spec sec processed with ⟨hpw, hmem, hsub⟩
    rcases ih (tfvarsCollectSec processed sec).2 with ⟨ihpw, ihmem⟩
    constructor
    · simp only [tfvarsCollectGo]
      refine List.pairwise_append.mpr ⟨hpw, ihpw, ?_⟩
      intro a ha b hb
      have hb' := ihmem b hb
      have ha' := (hmem a ha).2
      intro hEq
      exact hb' (hEq ▸ ha')
    · intro x hx
      simp only [tfvarsCollectGo, List.mem_append] at hx
      rcases hx with hx | hx
      · exact (hmem x hx).1
      · intro hp
        exact (ihmem x hx) (hsub x.1 hp)

/-- C5: for every input file, the diagnostics handed to the report callback by
`check_st003_parameter_alignment` (lines 126-141) are first sorted by line
number and deduplicated by the `(line, message)` pair, and the tfvars path
(lines 2580-2592) emits a list with strictly distinct line numbers sorted
ascending.  Stated over every possible collected error list, hence over every
input file. -/
theorem claimC5_report_sorted_dedup :
    (∀ L : List (Nat × String),
      (st003ReportStage L).Pairwise (fun a b => a.1 ≤ b.1) ∧ (st003ReportStage L).Nodup) ∧
    (∀ S : List (List (Nat × String)),
      (tfvarsReportStage S).Pairwise (fun a b => a.1 ≤ b.1) ∧
      (tfvarsReportStage S).Pairwise (fun a b => a.1 ≠ b.1)) := by
  constructor
  · intro L
    constructor
    · exact List.Pairwise.sublist (dedupSeen_sublist (sortByLine L) []) (sortByLine_pairwise L)
    · exact dedupSeen_nodup (sortByLine L) []
  · intro S
    constructor
    · exact sortByLine_pairwise _
    · have hperm := sortByLine_perm (tfvarsCollectGo [] S)
      have hbase := (tfvarsCollectGo_spec S []).1
      exact (List.Perm.pairwise_iff (fun h => Ne.symm h) hperm).mpr hbase

lemma countLeadingSpaces_cons (c : Char) (rest : Line) :
    countLeadingSpaces (c :: rest) = if c = chSpace then countLeadingSpaces rest + 1 else 0 := by
  simp only [countLeadingSpaces, List.takeWhile_cons]
  split <;> simp_all

lemma startsWith_space_of_count0 (a : Line) (h : countLeadingSpaces a = 0) :
    startsWithL a [chSpace] = false := by
  cases a with
  | nil => rfl
  | cons c rest =>
    rw [countLeadingSpaces_cons] at h
    by_cases hc : c = chSpace
    · simp [hc] at h
    · simp [startsWithL, List.isPrefixOf]
      intro hEq
      exact absurd hEq.symm hc

lemma startsWith_space_of_count1 (a : Line) (h : countLeadingSpaces a = 1) :
    startsWithL a [chSpace] = true ∧ startsWithL a [chSpace, chSpace] = false := by
  cases a with
  | nil => simp [countLeadingSpaces] at h
  | cons c rest =>
    rw [countLeadingSpaces_cons] at h
    by_cases hc : c = chSpace
    · subst hc
      simp only [if_pos rfl, Nat.add_right_cancel_iff] at h
      constructor
      · simp [startsWithL, List.isPrefixOf]
      · cases rest with
        | nil => simp [startsWithL, List.isPrefixOf]
        | cons d rest2 =>
          rw [countLeadingSpaces_cons] at h
          by_cases hd : d = chSpace
          · simp [hd] at h
          · simp [startsWithL, List.isPrefixOf]
            intro hEq
            exact absurd hEq.symm hd
    · simp [hc] at h

lemma startsWith_space_of_count2 (a : Line) (h : 2 ≤ countLeadingSpaces a) :
    startsWithL a [chSpace] = true ∧ startsWithL a [chSpace, chSpace] = true := by
  cases a with
  | nil => simp [countLeadingSpaces] at h
  | cons c rest =>
    rw [countLeadingSpaces_cons] at h
    by_cases hc : c = chSpace
    · subst hc
      simp only [if_pos rfl] at h
      cases rest with
      | nil => simp [countLeadingSpaces] at h
      | cons d rest2 =>
        rw [countLeadingSpaces_cons] at h
        by_cases hd : d = chSpace
        · subst hd
          constructor <;> simp [startsWithL, List.isPrefixOf]
        · simp [hd] at h
    · simp [hc] at h

/-- C7: for every alignment-group member, `_check_equals_after_spacing`
(lines 1585-1609, invoked for every sub-group line at lines 1526-1529 via
`_check_parameter_spacing`) passes exactly when one space follows `=`, reports
one message for zero spaces and a different message for two or more. -/
theorem claimC7_space_after_equals :
    ∀ (l : Line) (idx : Nat) (bt : String) (blockStart p : Nat),
      pyFind l chEq = some p →
      (countLeadingSpaces (l.drop (p + 1)) = 0 →
        checkEqualsAfterSpacing l idx bt blockStart = [(blockStart + idx + 1, spacingAfterMsg bt)]) ∧
      (countLeadingSpaces (l.drop (p + 1)) = 1 →
        checkEqualsAfterSpacing l idx bt blockStart = []) ∧
      (2 ≤ countLeadingSpaces (l.drop (p + 1)) →
        checkEqualsAfterSpacing l idx bt blockStart =
          [(blockStart + idx + 1, spacingAfterMultiMsg bt)]) ∧
      spacingAfterMsg bt ≠ spacingAfterMultiMsg bt := by
  intro l idx bt blockStart p h
  refine ⟨?_, ?_, ?_, ?_⟩
  · intro hc
    unfold checkEqualsAfterSpacing
    rw [h]
    simp [startsWith_space_of_count0 _ hc]
  · intro hc
    rcases startsWith_space_of_count1 _ hc with ⟨h1, h2⟩
    unfold checkEqualsAfterSpacing
    rw [h]
    simp [h1, h2]
  · intro hc
    rcases startsWith_space_of_count2 _ hc with ⟨h1, h2⟩
    unfold checkEqualsAfterSpacing
    rw [h]
    simp [h1, h2]
  · intro hEq
    have hlen : ((", found multiple spaces") : String).length = 23 := rfl
    have h2 := congrArg String.length hEq
    simp only [spacingAfterMsg, spacingAfterMultiMsg, String.length_append] at h2
    omega

/-- C7 witness: concrete instances of the three outcomes. -/
theorem claimC7_space_after_equals_witness :
    pyFind (lineOf ("a =1")) chEq = some 2 ∧
      ((countLeadingSpaces ((lineOf ("a =1")).drop 3) = 0 →
        checkEqualsAfterSpacing (lineOf ("a =1")) 0 ("locals") 0 = [(1, spacingAfterMsg ("locals"))]) ∧
      (countLeadingSpaces ((lineOf ("a =1")).drop 3) = 1 →
        checkEqualsAfterSpacing (lineOf ("a =1")) 0 ("locals") 0 = []) ∧
      (2 ≤ countLeadingSpaces ((lineOf ("a =1")).drop 3) →
        checkEqualsAfterSpacing (lineOf ("a =1")) 0 ("locals") 0 =
          [(1, spacingAfterMultiMsg ("locals"))]) ∧
      spacingAfterMsg ("locals") ≠ spacingAfterMultiMsg ("locals")) :=
  ⟨by decide, claimC7_space_after_equals (lineOf ("a =1")) 0 ("locals") 0 2 (by decide)⟩

/-- C9: both embedded entry points are pure functions of `(filePath, content)` —
running them twice yields identical diagnostic lists — and the one piece of
cross-call mutable state in the source (`_split_into_code_sections._block_lines`,
lines 271-278, read at line 1047) is overwritten on entry before its single
read, so the result of a call does not depend on the attribute value left by
any earlier call. -/
theorem claimC9_deterministic :
    (∀ filePath content : String,
      runTwice (st005Check filePath) content = (st005Check filePath content, st005Check filePath content)) ∧
    (∀ L : List (Nat × String), runTwice st003ReportStage L = (st003ReportStage L, st003ReportStage L)) ∧
    (∀ (s₁ s₂ : Option (List Line)) (bl : List Line)
        (body : List Line → List Line → List (List (Line × Nat))),
      (splitSectionsAttrCall s₁ bl body).1 = (splitSectionsAttrCall s₂ bl body).1) ∧
    (∀ (s : Option (List Line)) (bl : List Line)
        (body : List Line → List Line → List (List (Line × Nat))),
      (splitSectionsAttrCall (splitSectionsAttrCall s bl body).2 bl body).1 =
        (splitSectionsAttrCall s bl body).1) :=
  ⟨fun _ _ => rfl, fun _ => rfl, fun _ _ _ _ => rfl, fun _ _ _ => rfl⟩

lemma tabInLeadingWs_cons_space (rest : Line) :
    tabInLeadingWs (chSpace :: rest) = tabInLeadingWs rest := by
  simp only [tabInLeadingWs, List.takeWhile_cons, containsChar]
  rw [if_pos (by decide)]
  simp only [List.any_cons]
  rw [show (decide (chSpace = chTab)) = false from by decide]
  simp

lemma getIndentGo_neg {l : Line} :
    ∀ n, tabInLeadingWs l = true → getIndentGo l n = -1 := by
  induction l with
  | nil => intro n h; simp [tabInLeadingWs, containsChar] at h
  | cons c rest ih =>
    intro n h
    by_cases hc : c = chSpace
    · subst hc
      simp only [getIndentGo, if_pos rfl]
      exact ih (n + 1) (by rwa [tabInLeadingWs_cons_space] at h)
    · by_cases ht : c = chTab
      · subst ht
        simp only [getIndentGo]
        rw [if_neg (by decide)]
        simp
      · exfalso
        simp only [tabInLeadingWs, List.takeWhile_cons] at h
        rw [if_neg (by simp [hc, ht])] at h
        simp [containsChar] at h

lemma pyGetIndentationLevel_neg {l : Line} (h : tabInLeadingWs l = true) :
    pyGetIndentationLevel l = -1 :=
  getIndentGo_neg 0 h

lemma mem_singleton_fst {e : Nat × String} {n : Nat} {m : String}
    (he : e ∈ [(n, m)]) : e.1 = n := by
  rcases List.mem_singleton.mp he with rfl
  rfl

lemma mem_ite_singleton_fst {c : Prop} [Decidable c] {e : Nat × String} {n : Nat} {m : String}
    (he : e ∈ (if c then [(n, m)] else [])) : e.1 = n := by
  split at he
  · exact mem_singleton_fst he
  · exact absurd he (List.not_mem_nil e)

lemma validateLineIndentation_lineNum (lineNum : Nat) (lc : Line) (indentLevel : Int)
    (isTfvars : Bool) (cn br bk : Int) :
    ∀ e ∈ validateLineIndentation lineNum lc indentLevel isTfvars cn br bk, e.1 = lineNum := by
  intro e he
  unfold validateLineIndentation at he
  split at he
  · exact mem_ite_singleton_fst he
  · split at he
    · exact mem_singleton_fst he
    · split at he
      · exact mem_singleton_fst he
      · dsimp only at he
        exact mem_ite_singleton_fst he

lemma st005ProcessLine_lineNum (isTfvars : Bool) (st : St005State) (lineNum : Nat) (l : Line) :
    ∀ e ∈ (st005ProcessLine isTfvars st lineNum l).2, e.1 = lineNum := by
  intro e he
  unfold st005ProcessLine at he
  dsimp only at he
  split at he
  · exact absurd he (List.not_mem_nil e)
  · split at he
    · exact absurd he (List.not_mem_nil e)
    · split at he
      · exact absurd he (List.not_mem_nil e)
      · split at he
        · exact absurd he (List.not_mem_nil e)
        · exact validateLineIndentation_lineNum _ _ _ _ _ _ _ e he

lemma st005ProcessLine_tab (isTfvars : Bool) (st : St005State) (lineNum : Nat) {l : Line}
    (h : tabInLeadingWs l = true) : (st005ProcessLine isTfvars st lineNum l).2 = [] := by
  unfold st005ProcessLine
  dsimp only
  split
  · rfl
  · split
    · rfl
    · split
      · rfl
      · rw [if_pos (pyGetIndentationLevel_neg h)]

lemma st005Go_lineNum_ge (isTfvars : Bool) :
    ∀ (lines : List Line) (st : St005State) (n : Nat),
      ∀ e ∈ st005Go isTfvars st n lines, n ≤ e.1 := by
  intro lines
  induction lines with
  | nil => intro st n e he; simp [st005Go] at he
  | cons l rest ih =>
    intro st n e he
    simp only [st005Go, List.mem_append] at he
    rcases he with he | he
    · exact le_of_eq (st005ProcessLine_lineNum isTfvars st n l e he).symm
    · exact le_trans (by omega) (ih _ (n + 1) e he)

lemma st005Go_tab_not_mem (isTfvars : Bool) :
    ∀ (lines : List Line) (st : St005State) (n k : Nat) (msg : String),
      tabInLeadingWs (lines.getD k []) = true →
      (n + k, msg) ∉ st005Go isTfvars st n lines := by
  intro lines
  induction lines with
  | nil => intro st n k msg h; simp [tabInLeadingWs, containsChar] at h
  | cons l rest ih =>
    intro st n k msg h hmem
    simp only [st005Go, List.mem_append] at hmem
    cases k with
    | zero =>
      rw [List.getD_cons_zero] at h
      rcases hmem with hmem | hmem
      · rw [st005ProcessLine_tab isTfvars st n h] at hmem
        simp at hmem
      · have := st005Go_lineNum_ge isTfvars rest _ (n + 1) _ hmem
        omega
    | succ k' =>
      rcases hmem with hmem | hmem
      · have := st005ProcessLine_lineNum isTfvars st n l _ hmem
        omega
      · have h' : tabInLeadingWs (rest.getD k' []) = true := by
          rwa [List.getD_cons_succ] at h
        have hk := ih (st005ProcessLine isTfvars st n l).1 (n + 1) k' msg h'
        exact hk (by
          have heq : n + 1 + k' = n + (k' + 1) := by omega
          rw [heq]
          exact hmem)

/-- C10: a line whose leading spaces/tabs run contains a tab character is
silently excluded from ST.005 validation: `_get_indentation_level` returns
`-1` (lines 397-416) and the main loop skips it (lines 145-149), so no
diagnostic carries its line number. -/
theorem claimC10_tab_lines_skipped :
    ∀ (filePath content : String) (k : Nat) (msg : String),
      tabInLeadingWs ((splitNL content.data).getD k []) = true →
      (k + 1, msg) ∉ st005Check filePath content := by
  intro filePath content k msg h hmem
  have := st005Go_tab_not_mem (isTfvarsPath filePath) (splitNL content.data) st005Init 1 k msg h
  exact this (by
    have heq : 1 + k = k + 1 := by omega
    rw [heq]
    exact hmem)

/-- C10 witness: the line `\tx = 1` (tab-indented) yields no diagnostic. -/
theorem claimC10_tab_lines_skipped_witness :
    tabInLeadingWs ((splitNL (("\tx = 1") : String).data).getD 0 []) = true ∧
      (1, indentMsg 0 2) ∉ st005Check ("main.tf") ("\tx = 1") :=
  ⟨by decide,
    claimC10_tab_lines_skipped ("main.tf") ("\tx = 1") 0 (indentMsg 0 2) (by decide)⟩

lemma flatMap_nil_of_forall {α β : Type} {l : List α} {f : α → List β}
    (h : ∀ x ∈ l, f x = []) : l.flatMap f = [] := by
  induction l with
  | nil => rfl
  | cons a rest ih =>
    simp only [List.flatMap_cons, h a (List.mem_cons_self a rest)]
    exact ih (fun x hx => h x (List.mem_cons_of_mem a hx))

/-- C1 (amended): in a non-`.tfvars` group with at least two parameter entries,
the expected equals column is `indentLevel*2 + longestName + (2 if any member is
double-quoted else 0) + 1`; every member off that column **that is not excluded
by `_should_skip_alignment_check`** (tab, indentation not a multiple of two, a
previous block line mentioning ST.005 at indent 4, or a meta-parameter name) is
reported; if every member sits at the column, the group yields no alignment
diagnostics. -/
theorem claimC1_expected_column_amended :
    ∀ (gl : List (Line × Nat)) (il : Nat) (bt : String) (bsl : Nat) (bl : List Line),
      bt ≠ ("tfvars") →
      2 ≤ (paramDataOf gl).length →
      (expectedEqualsLocation (paramDataOf gl) il bt =
        il * 2 + maxNameLen (paramDataOf gl) +
          (if anyQuotedParam (paramDataOf gl) then 2 else 0) + 1) ∧
      (∀ p ∈ paramDataOf gl,
        p.equalsPos ≠ expectedEqualsLocation (paramDataOf gl) il bt →
        shouldSkipAlignmentCheck p.line p.name p.idx bl = false →
        ∃ m, (bsl + p.idx + 1, m) ∈ checkGroupAlignment gl il bt bsl bl) ∧
      ((∀ p ∈ paramDataOf gl, p.equalsPos = expectedEqualsLocation (paramDataOf gl) il bt) →
        checkGroupAlignment gl il bt bsl bl = []) := by
  intro gl il bt bsl bl hbt hlen
  have h1 : expectedEqualsLocation (paramDataOf gl) il bt =
      il * 2 + maxNameLen (paramDataOf gl) +
        (if anyQuotedParam (paramDataOf gl) then 2 else 0) + 1 := by
    unfold expectedEqualsLocation
    rw [if_neg hbt]
  have hlt : ¬(paramDataOf gl).length < 1 := by omega
  have hne1 : ¬(paramDataOf gl).length = 1 := by omega
  have hcga : checkGroupAlignment gl il bt bsl bl =
      (paramDataOf gl).flatMap (fun p =>
        if p.equalsPos = expectedEqualsLocation (paramDataOf gl) il bt then []
        else if shouldSkipAlignmentCheck p.line p.name p.idx bl then []
        else
          if p.equalsPos < expectedEqualsLocation (paramDataOf gl) il bt then
            [(bsl + p.idx + 1,
              notAlignedLtMsg bt
                ((expectedEqualsLocation (paramDataOf gl) il bt : Int) - ((il * 2 : Nat) : Int) -
                  (p.name.length : Int))
                (expectedEqualsLocation (paramDataOf gl) il bt))]
          else [(bsl + p.idx + 1,
              notAlignedGtMsg bt (expectedEqualsLocation (paramDataOf gl) il bt))]) := by
    unfold checkGroupAlignment
    rw [if_neg hlt, if_neg hne1]
  refine ⟨h1, ?_, ?_⟩
  · intro p hp hne hskip
    rw [hcga]
    by_cases hord : p.equalsPos < expectedEqualsLocation (paramDataOf gl) il bt
    · refine ⟨notAlignedLtMsg bt
        ((expectedEqualsLocation (paramDataOf gl) il bt : Int) - ((il * 2 : Nat) : Int) -
          (p.name.length : Int)) (expectedEqualsLocation (paramDataOf gl) il bt), ?_⟩
      refine List.mem_flatMap.mpr ⟨p, hp, ?_⟩
      rw [if_neg hne, if_neg (by simp [hskip]), if_pos hord]
      exact List.mem_singleton_self _
    · refine ⟨notAlignedGtMsg bt (expectedEqualsLocation (paramDataOf gl) il bt), ?_⟩
      refine List.mem_flatMap.mpr ⟨p, hp, ?_⟩
      rw [if_neg hne, if_neg (by simp [hskip]), if_neg hord]
      exact List.mem_singleton_self _
  · intro hall
    rw [hcga]
    exact flatMap_nil_of_forall (fun p hp => by rw [if_pos (hall p hp)])

/-- C1 witness: the group `  aa = 1` / `  b = 2` at indent level 1 in a
`locals` block: expected column 2·1+2+0+1 = 5. -/
theorem claimC1_expected_column_amended_witness :
    (("locals") : String) ≠ ("tfvars") ∧
    2 ≤ (paramDataOf [(lineOf ("  aa = 1"), 0), (lineOf ("  b = 2"), 1)]).length ∧
    ((expectedEqualsLocation (paramDataOf [(lineOf ("  aa = 1"), 0), (lineOf ("  b = 2"), 1)]) 1
        ("locals") =
      1 * 2 + maxNameLen (paramDataOf [(lineOf ("  aa = 1"), 0), (lineOf ("  b = 2"), 1)]) +
        (if anyQuotedParam (paramDataOf [(lineOf ("  aa = 1"), 0), (lineOf ("  b = 2"), 1)]) then 2
         else 0) + 1) ∧
    (∀ p ∈ paramDataOf [(lineOf ("  aa = 1"), 0), (lineOf ("  b = 2"), 1)],
      p.equalsPos ≠
        expectedEqualsLocation (paramDataOf [(lineOf ("  aa = 1"), 0), (lineOf ("  b = 2"), 1)]) 1
          ("locals") →
      shouldSkipAlignmentCheck p.line p.name p.idx [] = false →
      ∃ m, (0 + p.idx + 1, m) ∈
        checkGroupAlignment [(lineOf ("  aa = 1"), 0), (lineOf ("  b = 2"), 1)] 1 ("locals") 0 []) ∧
    ((∀ p ∈ paramDataOf [(lineOf ("  aa = 1"), 0), (lineOf ("  b = 2"), 1)],
        p.equalsPos =
          expectedEqualsLocation (paramDataOf [(lineOf ("  aa = 1"), 0), (lineOf ("  b = 2"), 1)]) 1
            ("locals")) →
      checkGroupAlignment [(lineOf ("  aa = 1"), 0), (lineOf ("  b = 2"), 1)] 1 ("locals") 0 [] =
        [])) :=
  ⟨by decide, by decide,
    claimC1_expected_column_amended [(lineOf ("  aa = 1"), 0), (lineOf ("  b = 2"), 1)] 1
      ("locals") 0 [] (by decide) (by decide)⟩

/-- C1 counterexample to the claim as stated: in the group `  name = 1` /
`  count  = 2` (indent level 1), the member `count` has its `=` at column 9,
different from the expected column 8, yet the only diagnostic is for line 1
(`name`); nothing is reported for line 2 because `count` is a meta-parameter.
The claim "every member whose `=` sits at a different column is reported" is
therefore false on the code. -/
theorem claimC1_counterexample :
    (paramDataOf [(lineOf ("  name = 1"), 0), (lineOf ("  count  = 2"), 1)]).map
        (fun p => p.equalsPos) = [7, 9] ∧
    expectedEqualsLocation
        (paramDataOf [(lineOf ("  name = 1"), 0), (lineOf ("  count  = 2"), 1)]) 1
        ("resource.a.b") = 8 ∧
    (checkGroupAlignment [(lineOf ("  name = 1"), 0), (lineOf ("  count  = 2"), 1)] 1
        ("resource.a.b") 0 []).map Prod.fst = [1] := by
  refine ⟨by decide, by decide, by decide⟩

lemma paramDataOf_find {gl : List (Line × Nat)} {p : ParamEntry} (hp : p ∈ paramDataOf gl) :
    pyFind p.line chEq = some p.equalsPos := by
  unfold paramDataOf at hp
  rcases List.mem_flatMap.mp hp with ⟨li, _, hmem⟩
  cases hfind : pyFind li.1 chEq with
  | none => rw [hfind] at hmem; simp at hmem
  | some q =>
    rw [hfind] at hmem
    dsimp only at hmem
    split at hmem
    · simp at hmem
    · split at hmem
      · simp at hmem
      · split at hmem
        · rcases List.mem_singleton.mp hmem with rfl
          exact hfind
        · simp at hmem

/-- C6 (amended): a group whose `param_data` holds exactly one entry **that is
not excluded by `_should_skip_alignment_check`** passes iff exactly one space
precedes and follows `=`; the only possible group diagnostic is the fixed
before-equals spacing message, so no expected-column check is applied. -/
theorem claimC6_single_member_amended :
    ∀ (gl : List (Line × Nat)) (il : Nat) (bt : String) (bsl : Nat) (bl : List Line)
      (p : ParamEntry),
      paramDataOf gl = [p] →
      shouldSkipAlignmentCheck p.line p.name p.idx bl = false →
      (checkGroupAlignment gl il bt bsl bl =
        (if spacesBeforeEquals p.line p.equalsPos = 1 then []
         else [(bsl + p.idx + 1, singleSpacingMsg bt)])) ∧
      ((checkGroupAlignment gl il bt bsl bl = [] ∧
          checkEqualsAfterSpacing p.line p.idx bt bsl = []) ↔
        (spacesBeforeEquals p.line p.equalsPos = 1 ∧
          countLeadingSpaces (p.line.drop (p.equalsPos + 1)) = 1)) := by
  intro gl il bt bsl bl p hpd hskip
  have hfind : pyFind p.line chEq = some p.equalsPos :=
    paramDataOf_find (by rw [hpd]; exact List.mem_singleton_self p)
  have h1 : checkGroupAlignment gl il bt bsl bl =
      (if spacesBeforeEquals p.line p.equalsPos = 1 then []
       else [(bsl + p.idx + 1, singleSpacingMsg bt)]) := by
    unfold checkGroupAlignment
    rw [hpd]
    simp only [List.length_singleton]
    rw [if_neg (by omega), if_pos trivial]
    rw [if_neg (by simp [hskip])]
    by_cases hs : spacesBeforeEquals p.line p.equalsPos = 1
    · rw [if_neg (by omega), if_pos hs]
    · rw [if_pos hs, if_neg hs]
  refine ⟨h1, ?_⟩
  constructor
  · rintro ⟨hg, hsp⟩
    have hb : spacesBeforeEquals p.line p.equalsPos = 1 := by
      by_contra hne
      rw [h1, if_neg hne] at hg
      simp at hg
    refine ⟨hb, ?_⟩
    unfold checkEqualsAfterSpacing at hsp
    rw [hfind] at hsp
    dsimp only at hsp
    rcases hcount : countLeadingSpaces (p.line.drop (p.equalsPos + 1)) with _ | n
    · rw [if_pos (by simp [startsWith_space_of_count0 _ hcount])] at hsp
      simp at hsp
    · cases n with
      | zero => rfl
      | succ k =>
        rcases startsWith_space_of_count2 (p.line.drop (p.equalsPos + 1)) (by omega) with ⟨hx, hy⟩
        rw [if_neg (by simp [hx]), if_pos hy] at hsp
        simp at hsp
  · rintro ⟨hb, hc⟩
    refine ⟨by rw [h1, if_pos hb], ?_⟩
    unfold checkEqualsAfterSpacing
    rw [hfind]
    dsimp only
    rcases startsWith_space_of_count1 (p.line.drop (p.equalsPos + 1)) hc with ⟨hx, hy⟩
    rw [if_neg (by simp [hx]), if_neg (by simp [hy])]

/-- C6 witness: the single-member group `  a = 1`. -/
theorem claimC6_single_member_amended_witness :
    paramDataOf [(lineOf ("  a = 1"), 0)] =
        [⟨lineOf ("a"), lineOf ("  a = 1"), 0, 4, false⟩] ∧
    shouldSkipAlignmentCheck (lineOf ("  a = 1")) (lineOf ("a")) 0 [] = false ∧
    ((checkGroupAlignment [(lineOf ("  a = 1"), 0)] 1 ("locals") 0 [] =
        (if spacesBeforeEquals (lineOf ("  a = 1")) 4 = 1 then []
         else [(0 + 0 + 1, singleSpacingMsg ("locals"))])) ∧
      ((checkGroupAlignment [(lineOf ("  a = 1"), 0)] 1 ("locals") 0 [] = [] ∧
          checkEqualsAfterSpacing (lineOf ("  a = 1")) 0 ("locals") 0 = []) ↔
        (spacesBeforeEquals (lineOf ("  a = 1")) 4 = 1 ∧
          countLeadingSpaces ((lineOf ("  a = 1")).drop 5) = 1))) :=
  ⟨by decide, by decide,
    claimC6_single_member_amended [(lineOf ("  a = 1"), 0)] 1 ("locals") 0 []
      ⟨lineOf ("a"), lineOf ("  a = 1"), 0, 4, false⟩ (by decide) (by decide)⟩

/-- C6 counterexample to the claim as stated: the single-member group
`\ta  = 1` has two spaces before `=` yet yields no diagnostic at all — the
line contains a tab, so the single-member spacing check is skipped.  The
"passes iff exactly one space precedes `=`" biconditional is therefore false
on the code. -/
theorem claimC6_counterexample :
    (paramDataOf [(lineOf ("\ta  = 1"), 0)]).map
        (fun p => spacesBeforeEquals p.line p.equalsPos) = [2] ∧
    checkGroupAlignment [(lineOf ("\ta  = 1"), 0)] 0 ("locals") 0 [] = [] ∧
    checkParameterSpacing (lineOf ("\ta  = 1")) 0 ("locals") 0 = [] := by
  refine ⟨by decide, by decide, by decide⟩

/-- C8 (amended): on the four-line input `resource "x" "y" {` / `  a = 1` /
`  bb = 2` / `}`, comment removal is the identity, block extraction yields
the single block `resource.x.y` starting at line 1 with body `  a = 1` /
`  bb = 2`, and, for any `splitter` behaving on this body as
`_split_into_code_sections` does (the two hypotheses; on a two-line body free
of braces, brackets, blanks and comments every splitting branch of rule_003.py
lines 271-1353 is disabled — all brace/bracket counts are zero and no line
starts or ends with a delimiter — so the splitter returns the one enumerated
section, and both post-processing passes keep it unchanged), the expected
equals column is 2+2+0+1 = 5 (0-based, reported 1-based as column 6) and the
full pipeline reports exactly one diagnostic, for file line 2 (`  a = 1`,
whose `=` sits at column 4); `  bb = 2` already has its `=` at column 5 and
is not flagged; after the rewrite `  a  = 1` the pipeline reports nothing. -/
theorem claimC8_e1_amended (splitter : List Line → List (List (Line × Nat)))
    (h1 : splitter [lineOf ("  a = 1"), lineOf ("  bb = 2")] =
      [[(lineOf ("  a = 1"), 0), (lineOf ("  bb = 2"), 1)]])
    (h2 : splitter [lineOf ("  a  = 1"), lineOf ("  bb = 2")] =
      [[(lineOf ("  a  = 1"), 0), (lineOf ("  bb = 2"), 1)]]) :
    extractCodeBlocks
        (removeCommentsForParsing
          (lineOf ("resource \"x\" \"y\" \x7b\n  a = 1\n  bb = 2\n\x7d"))) =
      [(("resource.x.y"), 1, [lineOf ("  a = 1"), lineOf ("  bb = 2")])] ∧
    expectedEqualsLocation (paramDataOf [(lineOf ("  a = 1"), 0), (lineOf ("  bb = 2"), 1)]) 1
        ("resource.x.y") = 5 ∧
    checkParameterAlignmentInSection [(lineOf ("  a = 1"), 0), (lineOf ("  bb = 2"), 1)]
        ("resource.x.y") 1 [lineOf ("  a = 1"), lineOf ("  bb = 2")] =
      [(2, notAlignedLtMsg ("resource.x.y") 2 5)] ∧
    st003NonTfvarsWith splitter
        (lineOf ("resource \"x\" \"y\" \x7b\n  a = 1\n  bb = 2\n\x7d")) =
      [(2, notAlignedLtMsg ("resource.x.y") 2 5)] ∧
    st003NonTfvarsWith splitter
        (lineOf ("resource \"x\" \"y\" \x7b\n  a  = 1\n  bb = 2\n\x7d")) = [] := by
  have hb : extractCodeBlocks
      (removeCommentsForParsing
        (lineOf ("resource \"x\" \"y\" \x7b\n  a = 1\n  bb = 2\n\x7d"))) =
      [(("resource.x.y"), 1, [lineOf ("  a = 1"), lineOf ("  bb = 2")])] := by decide
  have hb2 : extractCodeBlocks
      (removeCommentsForParsing
        (lineOf ("resource \"x\" \"y\" \x7b\n  a  = 1\n  bb = 2\n\x7d"))) =
      [(("resource.x.y"), 1, [lineOf ("  a  = 1"), lineOf ("  bb = 2")])] := by decide
  refine ⟨hb, by decide, by decide, ?_, ?_⟩
  · unfold st003NonTfvarsWith
    rw [hb]
    simp only [List.flatMap_cons, List.flatMap_nil, List.append_nil]
    rw [h1]
    simp only [List.flatMap_cons, List.flatMap_nil, List.append_nil]
    decide
  · unfold st003NonTfvarsWith
    rw [hb2]
    simp only [List.flatMap_cons, List.flatMap_nil, List.append_nil]
    rw [h2]
    simp only [List.flatMap_cons, List.flatMap_nil, List.append_nil]
    decide

set_option maxHeartbeats 2000000 in
/-- C8 witness: both splitter hypotheses hold at the concrete splitter that
wraps the body in its single enumerated section, and the theorem applies to
it on the literal four-line input. -/
theorem claimC8_e1_amended_witness :
    ((fun bl : List Line => [List.map (fun p => (p.2, p.1)) (List.enum bl)])
        [lineOf ("  a = 1"), lineOf ("  bb = 2")] =
      [[(lineOf ("  a = 1"), 0), (lineOf ("  bb = 2"), 1)]]) ∧
    ((fun bl : List Line => [List.map (fun p => (p.2, p.1)) (List.enum bl)])
        [lineOf ("  a  = 1"), lineOf ("  bb = 2")] =
      [[(lineOf ("  a  = 1"), 0), (lineOf ("  bb = 2"), 1)]]) ∧
    (extractCodeBlocks
        (removeCommentsForParsing
          (lineOf ("resource \"x\" \"y\" \x7b\n  a = 1\n  bb = 2\n\x7d"))) =
      [(("resource.x.y"), 1, [lineOf ("  a = 1"), lineOf ("  bb = 2")])] ∧
    expectedEqualsLocation (paramDataOf [(lineOf ("  a = 1"), 0), (lineOf ("  bb = 2"), 1)]) 1
        ("resource.x.y") = 5 ∧
    checkParameterAlignmentInSection [(lineOf ("  a = 1"), 0), (lineOf ("  bb = 2"), 1)]
        ("resource.x.y") 1 [lineOf ("  a = 1"), lineOf ("  bb = 2")] =
      [(2, notAlignedLtMsg ("resource.x.y") 2 5)] ∧
    st003NonTfvarsWith (fun bl => [List.map (fun p => (p.2, p.1)) (List.enum bl)])
        (lineOf ("resource \"x\" \"y\" \x7b\n  a = 1\n  bb = 2\n\x7d")) =
      [(2, notAlignedLtMsg ("resource.x.y") 2 5)] ∧
    st003NonTfvarsWith (fun bl => [List.map (fun p => (p.2, p.1)) (List.enum bl)])
        (lineOf ("resource \"x\" \"y\" \x7b\n  a  = 1\n  bb = 2\n\x7d")) = []) :=
  by
  refine ⟨by decide, by decide, ?_⟩
  exact claimC8_e1_amended (fun bl => [List.map (fun p => (p.2, p.1)) (List.enum bl)])
    (by decide) (by decide)

/-- C8 counterexample to the claim as stated: the claim requires both body
lines of E1 to be flagged, but the only diagnostic — in the section check and
through the whole pipeline on the literal input — is for file line 2
(`  a = 1`); no diagnostic exists for file line 3 (`  bb = 2`), whose `=`
already sits at the expected column. -/
theorem claimC8_counterexample :
    (checkParameterAlignmentInSection [(lineOf ("  a = 1"), 0), (lineOf ("  bb = 2"), 1)]
        ("resource.x.y") 1 [lineOf ("  a = 1"), lineOf ("  bb = 2")]).map Prod.fst = [2] ∧
    (st003NonTfvarsWith (fun bl => [List.map (fun p => (p.2, p.1)) (List.enum bl)])
        (lineOf ("resource \"x\" \"y\" \x7b\n  a = 1\n  bb = 2\n\x7d"))).map Prod.fst =
      [2] := by
  refine ⟨by decide, by decide⟩

lemma takeWhile_append_of_all {p : Char → Bool} {l₁ : Line} (l₂ : Line)
    (h : ∀ x ∈ l₁, p x = true) : (l₁ ++ l₂).takeWhile p = l₁ ++ l₂.takeWhile p := by
  induction l₁ with
  | nil => simp
  | cons c rest ih =>
    simp [List.cons_append, List.takeWhile_cons, h c (List.mem_cons_self c rest),
      ih (fun x hx => h x (List.mem_cons_of_mem c hx))]

lemma isUpperAZ_false_of_space {c : Char} (h : pyIsSpace c = true) : isUpperAZ c = false := by
  simp only [pyIsSpace, Bool.or_eq_true, decide_eq_true_eq] at h
  rcases h with ((((h | h) | h) | h) | h) | h <;> subst h <;> decide

lemma takeWhile_upper_nil_of_space {w : Line} (h : ∀ x ∈ w, pyIsSpace x = true) :
    w.takeWhile isUpperAZ = [] := by
  cases w with
  | nil => rfl
  | cons c rest =>
    simp only [List.takeWhile_cons, isUpperAZ_false_of_space (h c (List.mem_cons_self c rest))]
    rfl

lemma endsWith_false_of_all_space {w suf : Line} (h : ∀ x ∈ w, pyIsSpace x = true)
    {c : Char} (hc : pyIsSpace c = false) (hmem : c ∈ suf) : endsWithL w suf = false := by
  by_contra habs
  rw [Bool.not_eq_false] at habs
  have hsuf : suf <:+ w := by
    simpa [endsWithL, List.isSuffixOf_iff_suffix] using habs
  have : c ∈ w := hsuf.subset hmem
  rw [h c this] at hc
  exact Bool.true_eq_false.mp hc

lemma heredocStartMatch_none_aux (w t : Line) (ht : t ≠ [])
    (hup : ∀ x ∈ t, isUpperAZ x = true) (hw : ∀ x ∈ w, pyIsSpace x = true) {line : Line}
    (hr : pyRstrip line = w ++ t) : heredocStartMatch line = none := by
  unfold heredocStartMatch
  dsimp only
  rw [hr, List.reverse_append]
  have hrun : (t.reverse ++ w.reverse).takeWhile isUpperAZ = t.reverse := by
    rw [takeWhile_append_of_all _ (fun x hx => hup x (List.mem_reverse.mp hx)),
      takeWhile_upper_nil_of_space (fun x hx => hw x (List.mem_reverse.mp hx)),
      List.append_nil]
  rw [hrun]
  rw [List.drop_left, List.reverse_reverse, List.reverse_reverse]
  rw [if_neg (by simp [ht])]
  rw [endsWith_false_of_all_space hw (by decide : pyIsSpace chLT = false) (by simp),
    endsWith_false_of_all_space hw (by decide : pyIsSpace chDash = false) (by simp)]
  rfl

/-- A line whose stripped content is exactly an all-uppercase terminator can
never itself match the heredoc-start regex. -/
lemma heredocStartMatch_none_of_upper {line t : Line} (ht : t ≠ [])
    (hup : ∀ x ∈ t, isUpperAZ x = true) (hstrip : pyStrip line = t) :
    heredocStartMatch line = none := by
  refine heredocStartMatch_none_aux ((pyRstrip line).takeWhile pyIsSpace) t ht hup
    (fun x hx => List.mem_takeWhile_imp hx) ?_
  conv_lhs => rw [← List.takeWhile_append_dropWhile pyIsSpace (pyRstrip line)]
  unfold pyStrip pyLstrip at hstrip
  rw [hstrip]

/-- C2 (amended): the heredoc state machines behave as claimed — a line ending
in `<<TERMINATOR`/`<<-TERMINATOR` outside a heredoc starts a span, following
lines are suppressed regardless of content until a line whose trimmed content
equals the terminator, and the terminator line is processed normally — EXCEPT
that in the indentation checker (rule_005) the starting line itself is also
suppressed (its state is armed and it yields no diagnostic), while in the
alignment section splitter (rule_003 lines 303-326) the starting line is not
skipped. -/
theorem claimC2_heredoc_amended :
    (∀ (tfv : Bool) (st : St005State) (n : Nat) (line t : Line),
      st.inHeredoc = false → heredocStartMatch line = some t → pyStrip line ≠ [] →
      st005ProcessLine tfv st n line =
        ({ st with inHeredoc := true, terminator := some t }, [])) ∧
    (∀ (tfv : Bool) (st : St005State) (n : Nat) (line t : Line),
      st.inHeredoc = true → st.terminator = some t → pyStrip line ≠ t →
      st005ProcessLine tfv st n line = (st, [])) ∧
    (∀ (tfv : Bool) (st : St005State) (n : Nat) (line t : Line),
      st.inHeredoc = true → st.terminator = some t → t ≠ [] →
      (∀ x ∈ t, isUpperAZ x = true) → pyStrip line = t →
      st005ProcessLine tfv st n line =
        st005ProcessLine tfv ⟨false, none, st.braceLevel, st.bracketLevel⟩ n line) ∧
    (∀ (line t : Line), t ≠ [] → pyStrip line ≠ t →
      sectionHeredocStep true (some t) line = (true, true, some t)) ∧
    (∀ (line t : Line) (term : Option Line), heredocStartMatch line = some t →
      sectionHeredocStep false term line = (false, true, some t)) ∧
    (∀ (line t : Line), t ≠ [] → (∀ x ∈ t, isUpperAZ x = true) → pyStrip line = t →
      sectionHeredocStep true (some t) line = (false, false, none)) := by
  refine ⟨?_, ?_, ?_, ?_, ?_, ?_⟩
  · intro tfv st n line t hH hmatch hne
    cases st with
    | mk a b c d =>
      simp only at hH
      subst hH
      simp [st005ProcessLine, checkHeredocState, hmatch, hne]
  · intro tfv st n line t hH hterm hne
    cases st with
    | mk a b c d =>
      simp only at hH hterm
      subst hH
      subst hterm
      by_cases hblank : pyStrip line = []
      · simp [st005ProcessLine, hblank]
      · simp [st005ProcessLine, checkHeredocState, hblank, hne]
  · intro tfv st n line t hH hterm ht hup hstrip
    have hne : pyStrip line ≠ [] := by rw [hstrip]; exact ht
    have hnomatch : heredocStartMatch line = none := heredocStartMatch_none_of_upper ht hup hstrip
    cases st with
    | mk a b c d =>
      simp only at hH hterm
      subst hH
      subst hterm
      simp [st005ProcessLine, checkHeredocState, hne, hnomatch, hstrip,
        List.isEmpty_eq_true, ht]
  · intro line t ht hne
    simp [sectionHeredocStep, hne]
  · intro line t term hmatch
    cases term with
    | none => simp [sectionHeredocStep, hmatch]
    | some u => simp [sectionHeredocStep, hmatch]
  · intro line t ht hup hstrip
    have hnomatch : heredocStartMatch line = none := heredocStartMatch_none_of_upper ht hup hstrip
    simp [sectionHeredocStep, hstrip, hnomatch, List.isEmpty_eq_true, ht]

/-- C2 witness: concrete instances — `x = <<EOT` arms the state, a body line
`  junk = 1` is suppressed, and the line `EOT` ends the span. -/
theorem claimC2_heredoc_amended_witness :
    (st005ProcessLine false ⟨false, none, 1, 0⟩ 4 (lineOf ("x = <<EOT")) =
      (⟨true, some (lineOf ("EOT")), 1, 0⟩, [])) ∧
    (st005ProcessLine false ⟨true, some (lineOf ("EOT")), 1, 0⟩ 5 (lineOf ("      junk")) =
      (⟨true, some (lineOf ("EOT")), 1, 0⟩, [])) ∧
    (st005ProcessLine false ⟨true, some (lineOf ("EOT")), 1, 0⟩ 6 (lineOf ("EOT")) =
      st005ProcessLine false ⟨false, none, 1, 0⟩ 6 (lineOf ("EOT"))) ∧
    (sectionHeredocStep true (some (lineOf ("EOT"))) (lineOf ("  body \x7b")) =
      (true, true, some (lineOf ("EOT")))) ∧
    (sectionHeredocStep false none (lineOf ("x = <<EOT")) =
      (false, true, some (lineOf ("EOT")))) ∧
    (sectionHeredocStep true (some (lineOf ("EOT"))) (lineOf ("EOT")) = (false, false, none)) :=
  ⟨claimC2_heredoc_amended.1 false ⟨false, none, 1, 0⟩ 4 (lineOf ("x = <<EOT"))
      (lineOf ("EOT")) (by decide) (by decide) (by decide),
    claimC2_heredoc_amended.2.1 false ⟨true, some (lineOf ("EOT")), 1, 0⟩ 5
      (lineOf ("      junk")) (lineOf ("EOT")) (by decide) (by decide) (by decide),
    claimC2_heredoc_amended.2.2.1 false ⟨true, some (lineOf ("EOT")), 1, 0⟩ 6 (lineOf ("EOT"))
      (lineOf ("EOT")) (by decide) (by decide) (by decide) (by decide) (by decide),
    claimC2_heredoc_amended.2.2.2.1 (lineOf ("  body \x7b")) (lineOf ("EOT")) (by decide)
      (by decide),
    claimC2_heredoc_amended.2.2.2.2.1 (lineOf ("x = <<EOT")) (lineOf ("EOT")) none (by decide),
    claimC2_heredoc_amended.2.2.2.2.2 (lineOf ("EOT")) (lineOf ("EOT")) (by decide) (by decide)
      (by decide)⟩

/-- C2 counterexample to the claim as stated: the heredoc-start line
` x = <<EOT` (one-space indent) is itself suppressed by the indentation
checker — processing it arms the heredoc state and emits nothing — although
the validator would flag that same line (odd indentation 1, expected 2) had it
not been suppressed.  The claim says the starting line is not suppressed. -/
theorem claimC2_counterexample :
    st005ProcessLine false st005Init 1 (lineOf (" x = <<EOT")) =
      (⟨true, some (lineOf ("EOT")), 0, 0⟩, []) ∧
    validateLineIndentation 1 (pyStrip (lineOf (" x = <<EOT")))
        (pyGetIndentationLevel (lineOf (" x = <<EOT"))) false 0 0 0 = [(1, indentMsg 1 2)] := by
  refine ⟨by decide, by decide⟩

/-- C4 (amended): for a validated line (non-blank, non-comment, non-suppressed,
tab-free), the expected indentation is `currentNestingLevel * 2` — the
brace+bracket depth before the line times two — provided additionally that the
line has even indentation and carries no unmatched closing brace/bracket after
the balanced-line and assignment adjustments (`closingAnalysis` false); a
top-level declaration line (keyword-prefixed, not ending in `{`, without
` = `) is instead required to have indentation 0; and a bare top-level
assignment is flagged against an expected 2 spaces. -/
theorem claimC4_expected_indent_amended :
    (∀ (n : Nat) (lc : Line) (indent : Int) (tfv : Bool) (cn br bk : Int),
      topLevelDeclCond lc = false →
      indent % 2 = 0 →
      bareTopAssignCond lc indent tfv = false →
      (closingAnalysis lc).1 = false →
      validateLineIndentation n lc indent tfv cn br bk =
        (if indent ≠ cn * 2 then [(n, indentMsg indent (cn * 2))] else [])) ∧
    (∀ (n : Nat) (lc : Line) (indent : Int) (tfv : Bool) (cn br bk : Int),
      topLevelDeclCond lc = true →
      validateLineIndentation n lc indent tfv cn br bk =
        (if indent > 0 then [(n, indentMsg indent 0)] else [])) ∧
    (∀ (n : Nat) (lc : Line) (indent : Int) (tfv : Bool) (cn br bk : Int),
      bareTopAssignCond lc indent tfv = true →
      validateLineIndentation n lc indent tfv cn br bk = [(n, indentMsg indent 2)]) := by
  refine ⟨?_, ?_, ?_⟩
  · intro n lc indent tfv cn br bk h1 h2 h3 h4
    simp only [validateLineIndentation, h1, h2, h3, h4]
    norm_num
  · intro n lc indent tfv cn br bk h1
    simp [validateLineIndentation, h1]
  · intro n lc indent tfv cn br bk h
    have h' := h
    simp only [bareTopAssignCond, Bool.and_eq_true, decide_eq_true_eq, Bool.not_eq_true] at h'
    rcases h' with ⟨⟨⟨⟨hind, _⟩, _⟩, _⟩, hkw⟩
    have hkw' : startsWithTopKeyword lc = false := by simpa using hkw
    have htop : topLevelDeclCond lc = false := by
      simp [topLevelDeclCond, hkw']
    subst hind
    simp [validateLineIndentation, htop, h]

/-- C4 witness: the line `a = 1` at depth 1 with 4 spaces is flagged against
expected 2; `locals {` at indent 3 is flagged against expected 0; a bare
top-level `a = 1` is flagged against expected 2. -/
theorem claimC4_expected_indent_amended_witness :
    (validateLineIndentation 3 (lineOf ("a = 1")) 4 false 1 1 0 =
      (if (4 : Int) ≠ 1 * 2 then [(3, indentMsg 4 (1 * 2))] else [])) ∧
    (validateLineIndentation 1 (lineOf ("locals x")) 3 false 0 0 0 =
      (if (3 : Int) > 0 then [(1, indentMsg 3 0)] else [])) ∧
    (validateLineIndentation 5 (lineOf ("a = 1")) 0 false 0 0 0 = [(5, indentMsg 0 2)]) :=
  ⟨claimC4_expected_indent_amended.1 3 (lineOf ("a = 1")) 4 false 1 1 0 (by decide) (by decide)
      (by decide) (by decide),
    claimC4_expected_indent_amended.2.1 1 (lineOf ("locals x")) 3 false 0 0 0 (by decide),
    claimC4_expected_indent_amended.2.2 5 (lineOf ("a = 1")) 0 false 0 0 0 (by decide)⟩

/-- C4 counterexample to the claim as stated: on `locals {` / `  a = 1` / `}`,
the closing-brace line (line 3) has brace+bracket depth 1 before it and actual
indentation 0; the claim's formula `depthBefore*2 = 2` would demand a
diagnostic for line 3, but the checker emits none — closing lines are aligned
with their opener, an exception the claim omits. -/
theorem claimC4_counterexample :
    st005Check ("main.tf") ("locals \x7b\n  a = 1\n\x7d") = [] ∧
    st005NestingBefore ("main.tf") ("locals \x7b\n  a = 1\n\x7d") 2 = 1 ∧
    pyGetIndentationLevel ((splitNL (("locals \x7b\n  a = 1\n\x7d") : String).data).getD 2 []) =
      0 := by
  refine ⟨by decide, by decide, by decide⟩

lemma bumpPos_same (c k : Nat) : bumpPos [(c, k)] c = [(c, k + 1)] := by
  simp [bumpPos]

lemma tfvarsUniquePositions_go_const {c : Nat} :
    ∀ (pd : List TfvarsEntry) (k : Nat),
      (∀ p ∈ pd, containsChar p.line chTab = false ∧ p.equalsPos = c) →
      pd.foldl (fun m p => if containsChar p.line chTab then m else bumpPos m p.equalsPos)
          [(c, k)] = [(c, k + pd.length)] := by
  intro pd
  induction pd with
  | nil => intro k _; simp
  | cons p rest ih =>
    intro k h
    rcases h p (List.mem_cons_self p rest) with ⟨htab, hpos⟩
    simp only [List.foldl_cons, htab, Bool.false_eq_true, if_false, hpos, bumpPos_same]
    rw [ih (k + 1) (fun q hq => h q (List.mem_cons_of_mem p hq))]
    simp only [List.length_cons]
    have heq : k + 1 + rest.length = k + (rest.length + 1) := by omega
    rw [heq]

lemma tfvarsUniquePositions_const {pd : List TfvarsEntry} {c : Nat} (hne : pd ≠ [])
    (h : ∀ p ∈ pd, containsChar p.line chTab = false ∧ p.equalsPos = c) :
    tfvarsUniquePositions pd = [(c, pd.length)] := by
  cases pd with
  | nil => exact absurd rfl hne
  | cons p rest =>
    rcases h p (List.mem_cons_self p rest) with ⟨htab, hpos⟩
    unfold tfvarsUniquePositions
    simp only [List.foldl_cons, htab, Bool.false_eq_true, if_false, hpos]
    have hb : bumpPos [] c = [(c, 1)] := by simp [bumpPos]
    rw [hb, tfvarsUniquePositions_go_const rest 1
      (fun q hq => h q (List.mem_cons_of_mem p hq))]
    simp only [List.length_cons]
    rw [Nat.add_comm]

lemma tfvarsUniqueSpacingErrors_msg (pd : List TfvarsEntry) (bt : String) :
    ∀ e ∈ tfvarsUniqueSpacingErrors pd bt, e.2 = atLeastAfterMsg bt := by
  intro e he
  unfold tfvarsUniqueSpacingErrors at he
  rcases List.mem_flatMap.mp he with ⟨p, _, hm⟩
  split at hm
  · exact absurd hm (List.not_mem_nil e)
  · split at hm
    · exact absurd hm (List.not_mem_nil e)
    · split at hm
      · exact absurd hm (List.not_mem_nil e)
      · split at hm
        · rcases List.mem_singleton.mp hm with rfl
          rfl
        · split at hm
          · rcases List.mem_singleton.mp hm with rfl
            rfl
          · exact absurd hm (List.not_mem_nil e)

lemma checkGroupAlignmentTfvars_unique {gl : List (Nat × Line)} {il : Nat} {bt : String}
    {pd : List TfvarsEntry} {c : Nat}
    (hpd : tfvarsParamDataOf (tfvarsDedupLines gl) = pd)
    (hlen : 2 ≤ pd.length)
    (hup : tfvarsUniquePositions pd = [(c, pd.length)]) :
    checkGroupAlignmentTfvars gl il bt =
      (if c < tfvarsExpectedUnique pd (il * 2) then
        pd.flatMap (fun p =>
          if p.shouldSkip then []
          else if containsChar p.line chTab then []
          else if p.equalsPos ≠ tfvarsExpectedUnique pd (il * 2) then
            [(p.lineNum,
              notAlignedLtMsg bt
                ((tfvarsExpectedUnique pd (il * 2) : Int) - ((il * 2 : Nat) : Int) -
                  (p.name.length : Int))
                (tfvarsExpectedUnique pd (il * 2)))]
          else [])
       else []) ++ tfvarsUniqueSpacingErrors pd bt := by
  unfold checkGroupAlignmentTfvars
  dsimp only
  rw [hpd]
  rw [if_neg (by omega)]
  rw [hup]
  simp only [List.length_singleton, List.headD_cons]
  rw [if_pos trivial]

/-- C3 (amended): for a tab-free `.tfvars` group of at least two parameter
entries whose `=` signs all share one column `c`: if `c` is at least the
formula column (`indent + longest + quoteChars + 1`) every emitted diagnostic
is the after-equals spacing message, never an alignment one; if `c` is below
the formula column, every member **that is not a nested object/array
declaration** is reported as misaligned; and with several distinct columns, a
column shared by more than half of the members is preferred over the formula
column unless the two differ by 2 or more. -/
theorem claimC3_tfvars_tolerance_amended :
    (∀ (gl : List (Nat × Line)) (il : Nat) (bt : String) (pd : List TfvarsEntry) (c : Nat),
      tfvarsParamDataOf (tfvarsDedupLines gl) = pd →
      2 ≤ pd.length →
      (∀ p ∈ pd, containsChar p.line chTab = false) →
      (∀ p ∈ pd, p.equalsPos = c) →
      tfvarsExpectedUnique pd (il * 2) ≤ c →
      ∀ e ∈ checkGroupAlignmentTfvars gl il bt, e.2 = atLeastAfterMsg bt) ∧
    (∀ (gl : List (Nat × Line)) (il : Nat) (bt : String) (pd : List TfvarsEntry) (c : Nat),
      tfvarsParamDataOf (tfvarsDedupLines gl) = pd →
      2 ≤ pd.length →
      (∀ p ∈ pd, containsChar p.line chTab = false) →
      (∀ p ∈ pd, p.equalsPos = c) →
      c < tfvarsExpectedUnique pd (il * 2) →
      ∀ p ∈ pd, p.shouldSkip = false →
        (p.lineNum,
          notAlignedLtMsg bt
            ((tfvarsExpectedUnique pd (il * 2) : Int) - ((il * 2 : Nat) : Int) -
              (p.name.length : Int))
            (tfvarsExpectedUnique pd (il * 2))) ∈ checkGroupAlignmentTfvars gl il bt) ∧
    (∀ (mcPos mcCount total base : Nat),
      2 * mcCount > total →
      tfvarsSelectExpected mcPos mcCount total base =
        (if ((mcPos : Int) - (base : Int)).natAbs ≥ 2 then (false, base) else (true, mcPos))) := by
  refine ⟨?_, ?_, ?_⟩
  · intro gl il bt pd c hpd hlen htab hpos hge e he
    have hne : pd ≠ [] := by intro h; rw [h] at hlen; simp at hlen
    have hup := tfvarsUniquePositions_const hne (fun p hp => ⟨htab p hp, hpos p hp⟩)
    rw [checkGroupAlignmentTfvars_unique hpd hlen hup] at he
    rw [if_neg (by omega), List.nil_append] at he
    exact tfvarsUniqueSpacingErrors_msg pd bt e he
  · intro gl il bt pd c hpd hlen htab hpos hlt p hp hskip
    have hne : pd ≠ [] := by intro h; rw [h] at hlen; simp at hlen
    have hup := tfvarsUniquePositions_const hne (fun q hq => ⟨htab q hq, hpos q hq⟩)
    rw [checkGroupAlignmentTfvars_unique hpd hlen hup]
    rw [if_pos hlt]
    refine List.mem_append_left _ (List.mem_flatMap.mpr ⟨p, hp, ?_⟩)
    rw [if_neg (by simp [hskip]), if_neg (by simp [htab p hp]),
      if_pos (by rw [hpos p hp]; omega)]
    exact List.mem_singleton_self _
  · intro mcPos mcCount total base h
    unfold tfvarsSelectExpected
    rw [if_pos (by simp [h])]

/-- C3 witness: `aa    = 1` / `bbb   = 2` share column 6 ≥ formula column 4
(no alignment diagnostic); `aa = 1` / `bbb= 2` share column 3 < 4 (both
reported); a majority column equal to the formula column is preferred. -/
theorem claimC3_tfvars_tolerance_amended_witness :
    (2 ≤ (tfvarsParamDataOf
        (tfvarsDedupLines [(1, lineOf ("aa    = 1")), (2, lineOf ("bbb   = 2"))])).length ∧
      ∀ e ∈ checkGroupAlignmentTfvars [(1, lineOf ("aa    = 1")), (2, lineOf ("bbb   = 2"))] 0
          ("tfvars"),
        e.2 = atLeastAfterMsg ("tfvars")) ∧
    (∀ p ∈ tfvarsParamDataOf
        (tfvarsDedupLines [(1, lineOf ("aa = 1")), (2, lineOf ("bbb= 2"))]),
      p.shouldSkip = false →
      (p.lineNum,
        notAlignedLtMsg ("tfvars")
          ((tfvarsExpectedUnique
              (tfvarsParamDataOf
                (tfvarsDedupLines [(1, lineOf ("aa = 1")), (2, lineOf ("bbb= 2"))]))
              (0 * 2) : Int) - ((0 * 2 : Nat) : Int) - (p.name.length : Int))
          (tfvarsExpectedUnique
            (tfvarsParamDataOf
              (tfvarsDedupLines [(1, lineOf ("aa = 1")), (2, lineOf ("bbb= 2"))]))
            (0 * 2))) ∈
        checkGroupAlignmentTfvars [(1, lineOf ("aa = 1")), (2, lineOf ("bbb= 2"))] 0
          ("tfvars")) ∧
    (tfvarsSelectExpected 5 2 3 5 =
      (if ((5 : Int) - (5 : Int)).natAbs ≥ 2 then ((false : Bool), 5) else ((true : Bool), 5))) :=
  ⟨⟨by decide,
      claimC3_tfvars_tolerance_amended.1
        [(1, lineOf ("aa    = 1")), (2, lineOf ("bbb   = 2"))] 0 ("tfvars") _ 6 rfl
        (by decide) (by decide) (by decide) (by decide)⟩,
    claimC3_tfvars_tolerance_amended.2.1
      [(1, lineOf ("aa = 1")), (2, lineOf ("bbb= 2"))] 0 ("tfvars") _ 3 rfl
      (by decide) (by decide) (by decide) (by decide),
    claimC3_tfvars_tolerance_amended.2.2 5 2 3 5 (by decide)⟩

/-- C3 counterexample to the claim as stated: the tfvars group `  ao= {` /
`  bz= {` (indent level 1) shares equals column 4, strictly below the formula
column 5, yet the checker reports nothing — both members are nested
object-declaration lines, which the alignment loop skips.  "A shared column
below the formula column is always an error" is therefore false on the code. -/
theorem claimC3_counterexample :
    (tfvarsParamDataOf
        (tfvarsDedupLines [(1, lineOf ("  ao= \x7b")), (2, lineOf ("  bz= \x7b"))])).map
        (fun p => (p.equalsPos, p.shouldSkip)) = [(4, true), (4, true)] ∧
    tfvarsExpectedUnique
        (tfvarsParamDataOf
          (tfvarsDedupLines [(1, lineOf ("  ao= \x7b")), (2, lineOf ("  bz= \x7b"))]))
        (1 * 2) = 5 ∧
    checkGroupAlignmentTfvars [(1, lineOf ("  ao= \x7b")), (2, lineOf ("  bz= \x7b"))] 1
        ("tfvars") = [] := by
  refine ⟨by decide, by decide, by decide⟩
